import Mathlib

/-!
Verification development for the GlobalChat VRChat relay backend
(src/server.js and its collapsed variants).

The development shallowly embeds the two stateful engines of the server:
the append-only in-memory message log with cursor-based incremental
retrieval, and the dotted-path JSON document store, together with the
per-IP cooldown rate limiter shared by the write routes.

Modelling conventions, stated once here:
* JavaScript numbers are IEEE doubles; every arithmetic fact proved below
  involves integers of small magnitude, where double arithmetic is exact,
  so numbers are embedded as Lean integers.  Numeric string literals are
  parsed as optionally signed decimal integer literals; fractional,
  exponent and hex literals are outside the model (no claim uses them).
* JSON arrays are not modelled: no route of the server constructs an
  array, and no claim concerns one.  A stored value is null, a boolean,
  a number, a string, or an object.
* Request parameters arrive as strings; absent parameters are embedded as
  the empty string whenever the source coalesces them with an or-default
  idiom, and as Option String when the source distinguishes absence from
  emptiness (destructuring defaults, typeof checks).
* Date.now(), randomUUID() and new Date().toISOString() are environment
  inputs and are supplied as fields of the request records.
* The filesystem behind the multi-document store of the first variant is
  embedded as an association list from document file key to tree; the
  debounced/synchronous flush and the best-effort GitHub push do not
  change the in-memory semantics and are not modelled.
-/

namespace GlobalChat

/-- A JSON-like value as stored in the document store (arrays omitted,
see the module comment). -/
inductive JValue where
  | jnull
  | jbool (b : Bool)
  | jnum (n : Int)
  | jstr (s : String)
  | jobj (fields : List (String × JValue))

/-- Whitespace trim on the character list of a string.  JavaScript trim
removes the full Unicode whitespace class; the claims only use ASCII
whitespace, where Char.isWhitespace agrees. -/
def trimChars (l : List Char) : List Char :=
  ((l.dropWhile Char.isWhitespace).reverse.dropWhile Char.isWhitespace).reverse

/-- String.prototype.trim, computed on the character list (the
position-based library trim does not reduce inside the kernel). -/
def jsTrim (s : String) : String := String.mk (trimChars s.data)

/-- String.prototype.slice(0, n) for the username truncation. -/
def jsTake (s : String) (n : Nat) : String := String.mk (s.data.take n)

/-- split(".") on the character list: the empty string yields a single
empty segment, adjacent dots yield empty segments, as in JavaScript. -/
def splitDots (l : List Char) : List (List Char) :=
  l.foldr
    (fun c acc =>
      if c = '.' then [] :: acc
      else match acc with
        | [] => [[c]]
        | seg :: rest => (c :: seg) :: rest)
    [[]]

/-- pathStr.split(".") as a list of segment strings. -/
def splitOnDot (s : String) : List String := (splitDots s.data).map String.mk

/-- Lookup in an association list, mirroring JavaScript own-property
lookup on an object (first binding wins; our setters keep keys unique). -/
def assocGet {α : Type} : List (String × α) → String → Option α
  | [], _ => none
  | (k1, v1) :: rest, k => if k1 = k then some v1 else assocGet rest k

/-- Property assignment on an object: update the existing binding in
place (JavaScript keeps the original insertion position) or append. -/
def assocSet {α : Type} : List (String × α) → String → α → List (String × α)
  | [], k, v => [(k, v)]
  | (k1, v1) :: rest, k, v =>
      if k1 = k then (k, v) :: rest else (k1, v1) :: assocSet rest k v

/-- The intermediate-container test of setByPath:
typeof o !== "object" is false exactly for objects (and null, which the
source excludes explicitly with an o === null disjunct). -/
def JValue.isContainer : JValue → Bool
  | .jobj _ => true
  | _ => false

/-- getByPath on an already split key list: the source reduces over the
segments with (o && hasOwnProperty(o, k)) ? o[k] : undefined, which
descends through objects and collapses to undefined on anything else.
(String scalars expose index properties in JavaScript; no claim reads
through a string and they are not modelled.) -/
def getPath : JValue → List String → Option JValue
  | o, [] => some o
  | .jobj fs, k :: rest =>
      match assocGet fs k with
      | some c => getPath c rest
      | none => none
  | _, _ :: _ => none

/-- setByPath on an already split key list.  The source walks the
intermediate segments, replacing a missing or non-container value with
an empty object before descending, then assigns at the final segment.
The functional rebuild below is the purely applicative image of that
in-place walk.  When the walk starts on a non-object (impossible for the
stores of the server, whose roots are always objects) the assignment is
a silent no-op, mirroring sloppy-mode property assignment on a
primitive. -/
def setPath : JValue → List String → JValue → JValue
  | o, [], _ => o
  | .jobj fs, [k], v => .jobj (assocSet fs k v)
  | .jobj fs, k :: k2 :: rest, v =>
      let child := match assocGet fs k with
        | some c => if c.isContainer then c else .jobj []
        | none => .jobj []
      .jobj (assocSet fs k (setPath child (k2 :: rest) v))
  | o, _ :: _, _ => o

/-- getByPath with a dotted path string; the source returns the whole
object when the path is empty, otherwise splits on dots. -/
def getByPath (o : JValue) (pathStr : String) : Option JValue :=
  if pathStr = "" then some o else getPath o (splitOnDot pathStr)

/-- setByPath with a dotted path string.  The source throws
path-required on the empty string; every caller in the server guards the
path first, and the handlers below model that guard as an early error
return, so this function is only ever applied to non-empty paths. -/
def setByPath (o : JValue) (pathStr : String) (v : JValue) : JValue :=
  setPath o (splitOnDot pathStr) v

/-- Digits of a decimal literal folded to a natural number. -/
def digitsToNat (l : List Char) : Nat :=
  l.foldl (fun a c => a * 10 + (c.toNat - Char.toNat '0')) 0

/-- A non-empty all-digit run parsed, otherwise failure. -/
def parseDigits (l : List Char) : Option Nat :=
  if l ≠ [] ∧ l.all (·.isDigit) then some (digitsToNat l) else none

/-- JavaScript Number(string) restricted to optionally signed decimal
integer literals: surrounding whitespace is ignored, the empty string is
0, anything else unparsable is NaN (embedded as none).  Fractional,
exponent and hex literals are outside the model. -/
def jsStrToNumber (s : String) : Option Int :=
  let t := jsTrim s
  if t = "" then some 0
  else match t.data with
    | '-' :: ds => (parseDigits ds).map (fun n => -(n : Int))
    | '+' :: ds => (parseDigits ds).map (fun n => (n : Int))
    | ds => (parseDigits ds).map (fun n => (n : Int))

/-- JavaScript Number() coercion of a looked-up store value; none is
NaN.  undefined (absent) is NaN, null is 0, booleans are 0 and 1,
numbers are themselves, strings parse as decimal literals, objects are
NaN. -/
def jsToNumber : Option JValue → Option Int
  | none => none
  | some .jnull => some 0
  | some (.jbool b) => some (if b then 1 else 0)
  | some (.jnum n) => some n
  | some (.jstr s) => jsStrToNumber s
  | some (.jobj _) => none

/-- The Number(x) || 0 idiom of the source: NaN (and 0 itself) collapse
to 0. -/
def numOrZero (v : Option JValue) : Int := (jsToNumber v).getD 0

/-- Environment-derived configuration of the server. -/
structure Config where
  ALLOWED_WORLD_IDS : List String
  MAX_LEN : Nat
  COOLDOWN_MS : Int
  DEFAULT_LIMIT : Int
  WRITE_TOKEN : String
  deriving DecidableEq, Repr

/-- A stored chat message. -/
structure Message where
  id : Nat
  uuid : String
  worldId : String
  channel : String
  username : String
  text : String
  timestamp : String
  deriving DecidableEq, Repr

/-- The projection of a stored message returned by the /messages route
(the uuid is internal). -/
structure MsgView where
  id : Nat
  worldId : String
  channel : String
  username : String
  text : String
  timestamp : String
  deriving DecidableEq, Repr

/-- The projection returned by the /messages.json route. -/
structure SnapView where
  username : String
  text : String
  timestamp : String
  deriving DecidableEq, Repr

def msgView (m : Message) : MsgView :=
  { id := m.id, worldId := m.worldId, channel := m.channel,
    username := m.username, text := m.text, timestamp := m.timestamp }

def snapView (m : Message) : SnapView :=
  { username := m.username, text := m.text, timestamp := m.timestamp }

/-- The mutable process state: the chat log with its id counter, the
shared rate-limit ledger, the multi-document store of the first variant
(an association list from document file key to tree, embedding the
per-document JSON files), and the singleton STORE of the second
variant. -/
structure ServerState where
  AUTO_ID : Nat
  MESSAGES : List Message
  lastSentByIP : List (String × Int)
  docs : List (String × JValue)
  STORE : JValue

/-- The state at process start: counter 0, empty log, empty ledger,
no document files, STORE loaded as the empty object. -/
def initialState : ServerState :=
  { AUTO_ID := 0, MESSAGES := [], lastSentByIP := [], docs := [], STORE := .jobj [] }

/-- lastSentByIP.get(ip) || 0. -/
def ledgerGet (l : List (String × Int)) (ip : String) : Int := (assocGet l ip).getD 0

/-- fileForDoc: the empty document name aliases the default store file
data/store.json, which is also the file of the document named store;
keys are embedded as the bare document name with that aliasing. -/
def fileForDoc (doc : String) : String := if jsTrim doc = "" then "store" else jsTrim doc

/-- A uniform embedding of the JSON bodies the routes respond with. -/
structure HResp where
  status : Nat
  ok : Bool
  error : Option String := none
  retId : Option Nat := none
  retVal : Option JValue := none
  retMs : Option Int := none
  retTs : Option String := none

def errResp (st : Nat) (code : String) : HResp :=
  { status := st, ok := false, error := some code }

/-- Parameters of a /send request (query strings plus the environment
inputs the handler samples). -/
structure SendReq where
  ip : String
  worldId : String
  channel : String
  username : String
  text : String
  now : Int
  uuid : String
  tsIso : String
  deriving DecidableEq, Repr

/-- The four validation checks of the /send route, in source order,
applied after the rate limiter; none when the message is acceptable. -/
def sendValidate (cfg : Config) (r : SendReq) : Option (Nat × String) :=
  if jsTrim r.worldId = "" then some (400, "worldId-required")
  else if cfg.ALLOWED_WORLD_IDS ≠ [] ∧ jsTrim r.worldId ∉ cfg.ALLOWED_WORLD_IDS then
    some (403, "worldId-forbidden")
  else if jsTrim r.text = "" then some (400, "empty")
  else if (jsTrim r.text).length > cfg.MAX_LEN then some (400, "too-long")
  else none

/-- The message object a successful /send request appends: the next id,
trimmed and defaulted fields, the 24-unit username truncation;
String.take stands in for slice(0, 24) (the claims use ASCII usernames,
where UTF-16 units and characters coincide). -/
def sentMessage (r : SendReq) (s : ServerState) : Message :=
  { id := s.AUTO_ID + 1, uuid := r.uuid, worldId := jsTrim r.worldId,
    channel := jsTrim (if r.channel = "" then "global" else r.channel),
    username := jsTake (jsTrim (if r.username = "" then "Guest" else r.username)) 24,
    text := jsTrim r.text, timestamp := r.tsIso }

/-- The /send route: cooldown gate, validation, then append of the next
id and ledger update. -/
def sendRoute (cfg : Config) (r : SendReq) (s : ServerState) : HResp × ServerState :=
  if r.now - ledgerGet s.lastSentByIP r.ip < cfg.COOLDOWN_MS then
    (errResp 429 "rate-limit", s)
  else match sendValidate cfg r with
  | some (st, code) => (errResp st code, s)
  | none =>
      let msg := sentMessage r s
      ({ status := 200, ok := true, retId := some msg.id, retTs := some msg.timestamp },
       { s with AUTO_ID := s.AUTO_ID + 1,
                MESSAGES := s.MESSAGES ++ [msg],
                lastSentByIP := assocSet s.lastSentByIP r.ip r.now })

/-- Parameters of a /messages request.  since and limit reach the
handler as strings and go through toIntOrDefault (parseInt with a
default on NaN); they are embedded post-parse, with none standing for
an absent or unparsable limit. -/
structure MessagesReq where
  worldId : String
  channel : String
  since : Int
  limit : Option Int
  deriving DecidableEq, Repr

structure MessagesResp where
  cursor : Int
  messages : List MsgView
  deriving DecidableEq, Repr

/-- Math.max(1, Math.min(200, toIntOrDefault(limit, DEFAULT_LIMIT))). -/
def clampLimit (cfg : Config) (limit : Option Int) : Nat :=
  (max 1 (min 200 (limit.getD cfg.DEFAULT_LIMIT))).toNat

/-- The /messages route.  Array.prototype.sort is stable; the stable
List.insertionSort embeds it.  The cursor is serialized with String()
by the route and parsed back by toIntOrDefault on the next poll, which
round-trips for integers; it is embedded as the integer itself. -/
def messagesRoute (cfg : Config) (q : MessagesReq) (s : ServerState) : MessagesResp :=
  let w := jsTrim q.worldId
  let c := jsTrim q.channel
  let lim := clampLimit cfg q.limit
  let out0 := if cfg.ALLOWED_WORLD_IDS ≠ [] ∧ w ≠ "" then
    s.MESSAGES.filter (fun m => m.worldId = w) else s.MESSAGES
  let out1 := if c ≠ "" then out0.filter (fun m => m.channel = c) else out0
  let out2 := (out1.filter (fun m => (m.id : Int) > q.since)).insertionSort
    (fun a b => a.id ≤ b.id)
  let slice := out2.take lim
  let cursor : Int := match slice.getLast? with
    | some m => (m.id : Int)
    | none => q.since
  { cursor := cursor, messages := slice.map msgView }

structure SnapshotReq where
  worldId : String
  channel : String
  limit : Option Int
  deriving DecidableEq, Repr

/-- The /messages.json route: same filters, then the tail slice(-lim). -/
def messagesJsonRoute (cfg : Config) (q : SnapshotReq) (s : ServerState) : List SnapView :=
  let w := jsTrim q.worldId
  let c := jsTrim q.channel
  let lim := clampLimit cfg q.limit
  let out0 := if cfg.ALLOWED_WORLD_IDS ≠ [] ∧ w ≠ "" then
    s.MESSAGES.filter (fun m => m.worldId = w) else s.MESSAGES
  let out1 := if c ≠ "" then out0.filter (fun m => m.channel = c) else out0
  (out1.drop (out1.length - lim)).map snapView

/-- The regex ^-?\d+$ used by the first variant of /json/set to decide
whether a plain value string is coerced to a number. -/
def intRegexTest (s : String) : Bool :=
  match s.data with
  | '-' :: ds => ds ≠ [] && ds.all (·.isDigit)
  | ds => ds ≠ [] && ds.all (·.isDigit)

/-- The numeric value of a string accepted by intRegexTest. -/
def intRegexVal (s : String) : Int :=
  match s.data with
  | '-' :: ds => -(digitsToNat ds : Int)
  | ds => (digitsToNat ds : Int)

/-- Parameters of a /json/set request (first variant: multi-document
store, no worldId filter on this route).  valueJson distinguishes the
absent parameter (none) from a present one; a present parameter carries
the outcome of JSON.parse, supplied as an oracle because textual JSON
parsing is orthogonal to every claim: some v is a successful parse,
none inside is a parse failure. -/
structure SetReq where
  ip : String
  token : String
  doc : String
  pathStr : String
  value : String
  valueJson : Option (Option JValue)
  now : Int
  tsIso : String

/-- The value a /json/set request writes: the parsed JSON body when
valueJson is present, otherwise the raw value string with the decimal
integer coercion applied; none when the JSON body is malformed. -/
def setParseValue (r : SetReq) : Option JValue :=
  match r.valueJson with
  | some parsed => parsed
  | none => some (if intRegexTest r.value then .jnum (intRegexVal r.value) else .jstr r.value)

/-- The document file a request addresses and its current tree
(readDoc: loadStore returns the empty object when the file is absent). -/
def readDoc (docs : List (String × JValue)) (doc : String) : String × JValue :=
  let file := fileForDoc doc
  (file, (assocGet docs file).getD (.jobj []))

/-- The /json/set route of the first variant: cooldown gate, optional
token check, path required, value parse, then a path write to the
addressed document and a ledger update. -/
def jsonSetRoute (cfg : Config) (r : SetReq) (s : ServerState) : HResp × ServerState :=
  if r.now - ledgerGet s.lastSentByIP r.ip < cfg.COOLDOWN_MS then
    (errResp 429 "rate-limit", s)
  else if cfg.WRITE_TOKEN ≠ "" ∧ jsTrim r.token ≠ cfg.WRITE_TOKEN then
    (errResp 403 "invalid-token", s)
  else if jsTrim r.pathStr = "" then (errResp 400 "path-required", s)
  else match setParseValue r with
  | none => (errResp 400 "invalid-valueJson", s)
  | some v =>
      let fd := readDoc s.docs (jsTrim r.doc)
      ({ status := 200, ok := true, retVal := some v, retTs := some r.tsIso },
       { s with docs := assocSet s.docs fd.1 (setByPath fd.2 (jsTrim r.pathStr) v),
                lastSentByIP := assocSet s.lastSentByIP r.ip r.now })

/-- Parameters of a /json/inc request (second variant, acting on the
singleton STORE).  by carries the destructuring default "1" when the
parameter is absent, so it is an Option String. -/
structure IncReq where
  ip : String
  token : String
  worldId : String
  pathStr : String
  by_ : Option String
  now : Int
  tsIso : String

/-- The /json/inc route: cooldown gate, token check, path required (not
trimmed on this route), allow-list check on the optional worldId,
finiteness check on the delta, then the read-add-write on STORE and a
ledger update. -/
def jsonIncRoute (cfg : Config) (r : IncReq) (s : ServerState) : HResp × ServerState :=
  if r.now - ledgerGet s.lastSentByIP r.ip < cfg.COOLDOWN_MS then
    (errResp 429 "rate-limit", s)
  else if cfg.WRITE_TOKEN ≠ "" ∧ jsTrim r.token ≠ cfg.WRITE_TOKEN then
    (errResp 403 "invalid-token", s)
  else if r.pathStr = "" then (errResp 400 "path-required", s)
  else if cfg.ALLOWED_WORLD_IDS ≠ [] ∧ jsTrim r.worldId ≠ "" ∧
      jsTrim r.worldId ∉ cfg.ALLOWED_WORLD_IDS then
    (errResp 403 "worldId-forbidden", s)
  else match jsStrToNumber (r.by_.getD "1") with
  | none => (errResp 400 "invalid-by", s)
  | some delta =>
      let cur := numOrZero (getByPath s.STORE r.pathStr)
      let val := cur + delta
      ({ status := 200, ok := true, retVal := some (.jnum val), retTs := some r.tsIso },
       { s with STORE := setByPath s.STORE r.pathStr (.jnum val),
                lastSentByIP := assocSet s.lastSentByIP r.ip r.now })

/-- Parameters of a /json/setTotal request.  The handler never samples
the clock and never reads the client address, so the record carries
neither. -/
structure SetTotalReq where
  token : String
  doc : String
  player : String
  ms : String
  deriving DecidableEq, Repr

/-- The /json/setTotal route: optional token check, player required,
finite non-negative ms required, then a plain path write of
players.player.playMs on the addressed document.  There is no cooldown
gate and the ledger is never consulted or updated. -/
def setTotalRoute (cfg : Config) (r : SetTotalReq) (s : ServerState) : HResp × ServerState :=
  if cfg.WRITE_TOKEN ≠ "" ∧ jsTrim r.token ≠ cfg.WRITE_TOKEN then
    (errResp 403 "invalid-token", s)
  else if jsTrim r.player = "" then (errResp 400 "player-required", s)
  else match jsStrToNumber (jsTrim (if r.ms = "" then "0" else r.ms)) with
  | none => (errResp 400 "invalid-ms", s)
  | some ms =>
      if ms < 0 then (errResp 400 "invalid-ms", s)
      else
        let fd := readDoc s.docs (jsTrim r.doc)
        let p := "players." ++ jsTrim r.player ++ ".playMs"
        ({ status := 200, ok := true, retMs := some ms },
         { s with docs := assocSet s.docs fd.1 (setByPath fd.2 p (.jnum ms)) })

/-- Parameters of a /json/pulse request (first variant, lines 358-376);
like setTotal it samples neither the clock nor the client address. -/
structure PulseReq where
  token : String
  doc : String
  player : String
  addMs : String
  deriving DecidableEq, Repr

/-- The /json/pulse route: optional token check, player required,
finite positive addMs required (default 60000), then read-add-write of
players.player.playMs on the addressed document.  There is no cooldown
gate and the ledger is never consulted or updated. -/
def pulseRoute (cfg : Config) (r : PulseReq) (s : ServerState) : HResp × ServerState :=
  if cfg.WRITE_TOKEN ≠ "" ∧ jsTrim r.token ≠ cfg.WRITE_TOKEN then
    (errResp 403 "invalid-token", s)
  else if jsTrim r.player = "" then (errResp 400 "player-required", s)
  else match jsStrToNumber (jsTrim (if r.addMs = "" then "60000" else r.addMs)) with
  | none => (errResp 400 "invalid-addMs", s)
  | some a =>
      if a ≤ 0 then (errResp 400 "invalid-addMs", s)
      else
        let fd := readDoc s.docs (jsTrim r.doc)
        let p := "players." ++ jsTrim r.player ++ ".playMs"
        let cur := numOrZero (getByPath fd.2 p)
        let next := cur + a
        ({ status := 200, ok := true, retMs := some next },
         { s with docs := assocSet s.docs fd.1 (setByPath fd.2 p (.jnum next)) })

/-- A state-mutating request.  The read routes (/messages,
/messages.json, /json/get, /json/getTotal) are pure functions of the
state and touch nothing, so traces range over the writers. -/
inductive Req where
  | send (r : SendReq)
  | jsonSet (r : SetReq)
  | jsonInc (r : IncReq)
  | setTotal (r : SetTotalReq)
  | pulse (r : PulseReq)

/-- Dispatch one request. -/
def stepReq (cfg : Config) : Req → ServerState → HResp × ServerState
  | .send r, s => sendRoute cfg r s
  | .jsonSet r, s => jsonSetRoute cfg r s
  | .jsonInc r, s => jsonIncRoute cfg r s
  | .setTotal r, s => setTotalRoute cfg r s
  | .pulse r, s => pulseRoute cfg r s

/-- Run a request sequence, keeping the final state. -/
def runTrace (cfg : Config) (rs : List Req) (s : ServerState) : ServerState :=
  match rs with
  | [] => s
  | r :: rest => runTrace cfg rest (stepReq cfg r s).2

/-- The chain of fresh singleton objects that a path write builds below
a replaced or missing intermediate. -/
def chainOf : List String → JValue → JValue
  | [], v => v
  | k :: rest, v => .jobj [(k, chainOf rest v)]

theorem assocGet_assocSet_self {α : Type} (l : List (String × α)) (k : String) (v : α) :
    assocGet (assocSet l k v) k = some v := by
  induction l with
  | nil => simp [assocGet, assocSet]
  | cons h t ih =>
    obtain ⟨k1, v1⟩ := h
    by_cases hk : k1 = k
    · simp [assocSet, hk, assocGet]
    · simp [assocSet, hk, assocGet, ih]

theorem assocGet_assocSet_ne {α : Type} (l : List (String × α)) (k k' : String) (v : α)
    (h : k' ≠ k) : assocGet (assocSet l k v) k' = assocGet l k' := by
  induction l with
  | nil =>
    simp only [assocGet, assocSet]
    rw [if_neg (fun hh => h hh.symm)]
  | cons hd t ih =>
    obtain ⟨k1, v1⟩ := hd
    by_cases hk : k1 = k
    · subst hk
      simp only [assocSet, if_pos rfl, assocGet]
      rw [if_neg (fun hh => h hh.symm), if_neg (fun hh => h hh.symm)]
    · simp only [assocSet, if_neg hk, assocGet]
      by_cases hk2 : k1 = k'
      · simp [hk2]
      · simp [hk2, ih]

theorem setPath_empty_obj (keys : List String) (v : JValue) (h : keys ≠ []) :
    setPath (.jobj []) keys v = chainOf keys v := by
  induction keys with
  | nil => exact absurd rfl h
  | cons k rest ih =>
    cases rest with
    | nil => simp [setPath, chainOf, assocSet]
    | cons k2 r2 =>
      simp only [setPath, assocGet, chainOf, assocSet]
      rw [ih (by simp)]
      rfl

theorem setPath_descend (fs : List (String × JValue)) (k : String)
    (g : List (String × JValue)) (rest : List String) (v : JValue)
    (hg : assocGet fs k = some (.jobj g)) (hr : rest ≠ []) :
    setPath (.jobj fs) (k :: rest) v = .jobj (assocSet fs k (setPath (.jobj g) rest v)) := by
  cases rest with
  | nil => exact absurd rfl hr
  | cons k2 r2 => simp [setPath, hg, JValue.isContainer]

theorem setPath_fresh (fs : List (String × JValue)) (k : String) (rest : List String)
    (v : JValue) (hr : rest ≠ [])
    (hb : ∀ c, assocGet fs k = some c → c.isContainer = false) :
    setPath (.jobj fs) (k :: rest) v = .jobj (assocSet fs k (chainOf rest v)) := by
  cases rest with
  | nil => exact absurd rfl hr
  | cons k2 r2 =>
    cases hc : assocGet fs k with
    | none =>
      simp only [setPath, hc]
      rw [setPath_empty_obj _ _ (by simp)]
    | some c =>
      have hcc := hb c hc
      simp only [setPath, hc, hcc, Bool.false_eq_true, if_false]
      rw [setPath_empty_obj _ _ (by simp)]

theorem getPath_setPath (keys : List String) (fs : List (String × JValue)) (v : JValue)
    (h : keys ≠ []) : getPath (setPath (.jobj fs) keys v) keys = some v := by
  induction keys generalizing fs with
  | nil => exact absurd rfl h
  | cons k rest ih =>
    cases rest with
    | nil => simp [setPath, getPath, assocGet_assocSet_self]
    | cons k2 r2 =>
      have step : ∃ g : List (String × JValue),
          setPath (.jobj fs) (k :: k2 :: r2) v =
            .jobj (assocSet fs k (setPath (.jobj g) (k2 :: r2) v)) := by
        cases hc : assocGet fs k with
        | none => exact ⟨[], by simp [setPath, hc]⟩
        | some c =>
          cases c with
          | jobj g => exact ⟨g, by simp [setPath, hc, JValue.isContainer]⟩
          | jnull => exact ⟨[], by simp [setPath, hc, JValue.isContainer]⟩
          | jbool b => exact ⟨[], by simp [setPath, hc, JValue.isContainer]⟩
          | jnum n => exact ⟨[], by simp [setPath, hc, JValue.isContainer]⟩
          | jstr s => exact ⟨[], by simp [setPath, hc, JValue.isContainer]⟩
      obtain ⟨g, hg⟩ := step
      rw [hg]
      simp only [getPath, assocGet_assocSet_self]
      exact ih g (by simp)

theorem getPath_setPath_replaced (pre : List String) (fs g : List (String × JValue))
    (k : String) (rest : List String) (v w : JValue)
    (hr : rest ≠ []) (hpre : getPath (.jobj fs) pre = some (.jobj g))
    (hk : assocGet g k = some w) (hw : w.isContainer = false) :
    getPath (setPath (.jobj fs) (pre ++ k :: rest) v) (pre ++ [k]) = some (chainOf rest v) := by
  induction pre generalizing fs with
  | nil =>
    simp only [getPath, Option.some.injEq, JValue.jobj.injEq] at hpre
    subst hpre
    rw [List.nil_append, List.nil_append,
      setPath_fresh fs k rest v hr (fun c hc => by rw [hc] at hk; cases hk; exact hw)]
    simp [getPath, assocGet_assocSet_self]
  | cons p pre1 ih =>
    simp only [getPath] at hpre
    cases ho : assocGet fs p with
    | none => rw [ho] at hpre; cases hpre
    | some o =>
      rw [ho] at hpre
      have hobj : ∃ fs2 : List (String × JValue), o = .jobj fs2 := by
        cases o with
        | jobj fs2 => exact ⟨fs2, rfl⟩
        | jnull => cases pre1 <;> simp [getPath] at hpre
        | jbool b => cases pre1 <;> simp [getPath] at hpre
        | jnum n => cases pre1 <;> simp [getPath] at hpre
        | jstr s => cases pre1 <;> simp [getPath] at hpre
      obtain ⟨fs2, rfl⟩ := hobj
      rw [List.cons_append,
        setPath_descend fs p fs2 (pre1 ++ k :: rest) v ho (by simp)]
      rw [List.cons_append]
      simp only [getPath, assocGet_assocSet_self]
      exact ih fs2 hpre

/-- The pointwise selection the /messages filter chain computes on a
message, for already-trimmed filter strings w and c: the worldId
equality filter applies only when an allow-list is configured and a
worldId was supplied, the channel filter whenever a channel was
supplied. -/
def matchFilters (cfg : Config) (w c : String) (m : Message) : Bool :=
  (decide (cfg.ALLOWED_WORLD_IDS = []) || decide (w = "") || decide (m.worldId = w)) &&
  (decide (c = "") || decide (m.channel = c))

/-- The full per-poll selection: the filter chain plus the cursor
condition id > since. -/
def selFn (cfg : Config) (w c : String) (since : Int) (m : Message) : Bool :=
  matchFilters cfg w c m && decide ((m.id : Int) > since)

theorem filter_chain_eq (cfg : Config) (w c : String) (since : Int) (M : List Message) :
    ((if c ≠ "" then
        (if cfg.ALLOWED_WORLD_IDS ≠ [] ∧ w ≠ "" then
          M.filter (fun m => m.worldId = w) else M).filter (fun m => m.channel = c)
      else
        (if cfg.ALLOWED_WORLD_IDS ≠ [] ∧ w ≠ "" then
          M.filter (fun m => m.worldId = w) else M)).filter
        (fun m => (m.id : Int) > since)) =
      M.filter (selFn cfg w c since) := by
  by_cases h1 : cfg.ALLOWED_WORLD_IDS ≠ [] ∧ w ≠ ""
  · by_cases h2 : c ≠ ""
    · rw [if_pos h2, if_pos h1, List.filter_filter, List.filter_filter]
      refine List.filter_congr fun m _ => ?_
      cases hdw : decide (m.worldId = w) <;> cases hdc : decide (m.channel = c) <;>
        cases hdi : decide ((m.id : Int) > since) <;>
          simp [selFn, matchFilters, hdw, hdc, hdi, h1.1, h1.2, h2]
    · rw [if_neg h2, if_pos h1, List.filter_filter]
      rw [not_not] at h2
      refine List.filter_congr fun m _ => ?_
      cases hdw : decide (m.worldId = w) <;> cases hdi : decide ((m.id : Int) > since) <;>
        simp [selFn, matchFilters, hdw, hdi, h1.1, h1.2, h2]
  · rw [if_neg h1]
    rw [not_and_or, not_not, not_not] at h1
    by_cases h2 : c ≠ ""
    · rw [if_pos h2, List.filter_filter]
      refine List.filter_congr fun m _ => ?_
      rcases h1 with h1 | h1 <;>
        cases hdc : decide (m.channel = c) <;> cases hdi : decide ((m.id : Int) > since) <;>
          simp [selFn, matchFilters, hdc, hdi, h1, h2]
    · rw [if_neg h2]
      rw [not_not] at h2
      refine List.filter_congr fun m _ => ?_
      rcases h1 with h1 | h1 <;> cases hdi : decide ((m.id : Int) > since) <;>
        simp [selFn, matchFilters, hdi, h1, h2]

/-- Strict ascending ordering of a message list by id. -/
def IdsSorted (l : List Message) : Prop := l.Pairwise (fun a b => a.id < b.id)

theorem sorted_le_getLast (P : List Message) (hP : P ≠ []) (hs : IdsSorted P) :
    ∀ x ∈ P, x.id ≤ (P.getLast hP).id := by
  induction P with
  | nil => exact absurd rfl hP
  | cons a t ih =>
    intro x hx
    cases t with
    | nil =>
      rcases List.mem_singleton.mp hx with rfl
      simp [List.getLast]
    | cons b t2 =>
      rw [List.getLast_cons (by simp)]
      rcases List.mem_cons.mp hx with rfl | hx2
      · exact le_of_lt ((List.pairwise_cons.mp hs).1 _ (List.getLast_mem (by simp)))
      · exact ih (by simp) (List.pairwise_cons.mp hs).2 x hx2

theorem filter_gt_split (P D : List Message) (hs : IdsSorted (P ++ D)) (hP : P ≠ []) :
    (P ++ D).filter (fun m => (m.id : Int) > ((P.getLast hP).id : Int)) = D := by
  rw [List.filter_append]
  obtain ⟨hsP, hsD, hPD⟩ := List.pairwise_append.mp hs
  have hPnil : P.filter (fun m => (m.id : Int) > ((P.getLast hP).id : Int)) = [] := by
    refine List.filter_eq_nil_iff.mpr fun a ha => ?_
    have := sorted_le_getLast P hP hsP a ha
    simp only [decide_eq_true_eq, not_lt]
    exact_mod_cast this
  have hD : D.filter (fun m => (m.id : Int) > ((P.getLast hP).id : Int)) = D := by
    refine List.filter_eq_self.mpr fun a ha => ?_
    have := hPD (P.getLast hP) (List.getLast_mem hP) a ha
    simp only [decide_eq_true_eq]
    exact_mod_cast this
  rw [hPnil, hD, List.nil_append]

theorem idsSorted_filter (F : List Message) (p : Message → Bool) (hs : IdsSorted F) :
    IdsSorted (F.filter p) :=
  List.Pairwise.sublist (List.filter_sublist F) hs

/-- After a non-empty page, filtering the log again at the cursor (the
id of the last returned message) yields exactly the part of the
selection the page did not deliver. -/
theorem next_page_filter (F : List Message) (hs : IdsSorted F) (since : Int) (lim : Nat)
    (mlast : Message)
    (hlast : ((F.filter (fun m => (m.id : Int) > since)).take lim).getLast? = some mlast) :
    F.filter (fun m => (m.id : Int) > (mlast.id : Int)) =
      (F.filter (fun m => (m.id : Int) > since)).drop lim := by
  set T := F.filter (fun m => (m.id : Int) > since) with hT
  have hTs : IdsSorted T := idsSorted_filter F _ hs
  have hPne : T.take lim ≠ [] := by
    intro h
    rw [h] at hlast
    cases hlast
  have hmlast : mlast = (T.take lim).getLast hPne := by
    have := List.getLast?_eq_getLast (T.take lim) hPne
    rw [this] at hlast
    exact (Option.some.injEq _ _ ▸ hlast).symm ▸ rfl
  have hsplit : T = T.take lim ++ T.drop lim := (List.take_append_drop lim T).symm
  have hmem : mlast ∈ T := by
    rw [hmlast]
    exact List.mem_of_mem_take (List.getLast_mem hPne)
  have hgt : since < (mlast.id : Int) := by
    have := List.mem_filter.mp (hT ▸ hmem)
    simpa using this.2
  have step : T.filter (fun m => (m.id : Int) > (mlast.id : Int)) = T.drop lim := by
    conv_lhs => rw [hsplit]
    have := filter_gt_split (T.take lim) (T.drop lim) (hsplit ▸ hTs) hPne
    rw [← hmlast] at this
    exact this
  have outer : F.filter (fun m => (m.id : Int) > (mlast.id : Int)) =
      T.filter (fun m => (m.id : Int) > (mlast.id : Int)) := by
    rw [hT, List.filter_filter]
    refine (List.filter_congr fun a _ => ?_)
    cases hda : decide ((a.id : Int) > (mlast.id : Int)) with
    | false => simp [hda]
    | true =>
      simp only [hda, Bool.true_and, Bool.and_true, decide_eq_true_eq]
      rw [decide_eq_true]
      simp only [decide_eq_true_eq] at hda
      omega
  rw [outer, step]

theorem messagesRoute_eq (cfg : Config) (q : MessagesReq) (s : ServerState) :
    messagesRoute cfg q s =
      { cursor := match (((s.MESSAGES.filter
              (selFn cfg (jsTrim q.worldId) (jsTrim q.channel) q.since)).insertionSort
                (fun a b => a.id ≤ b.id)).take (clampLimit cfg q.limit)).getLast? with
          | some m => (m.id : Int)
          | none => q.since,
        messages := (((s.MESSAGES.filter
            (selFn cfg (jsTrim q.worldId) (jsTrim q.channel) q.since)).insertionSort
              (fun a b => a.id ≤ b.id)).take (clampLimit cfg q.limit)).map msgView } := by
  simp only [messagesRoute]
  rw [filter_chain_eq]

/-- On a log whose ids already ascend, the stable sort of the route is
the identity and the route is plain filter-take. -/
theorem messagesRoute_eq_of_sorted (cfg : Config) (q : MessagesReq) (s : ServerState)
    (hs : IdsSorted s.MESSAGES) :
    messagesRoute cfg q s =
      { cursor := match ((s.MESSAGES.filter
              (selFn cfg (jsTrim q.worldId) (jsTrim q.channel) q.since)).take
                (clampLimit cfg q.limit)).getLast? with
          | some m => (m.id : Int)
          | none => q.since,
        messages := ((s.MESSAGES.filter
            (selFn cfg (jsTrim q.worldId) (jsTrim q.channel) q.since)).take
              (clampLimit cfg q.limit)).map msgView } := by
  rw [messagesRoute_eq]
  have hT : IdsSorted (s.MESSAGES.filter
      (selFn cfg (jsTrim q.worldId) (jsTrim q.channel) q.since)) :=
    idsSorted_filter _ _ hs
  rw [List.Sorted.insertionSort_eq (hT.imp (fun h => le_of_lt h))]

theorem one_le_clampLimit (cfg : Config) (limit : Option Int) : 1 ≤ clampLimit cfg limit := by
  unfold clampLimit
  have h1 : (1 : Int) ≤ max 1 (min 200 (limit.getD cfg.DEFAULT_LIMIT)) := le_max_left _ _
  omega

theorem take_ne_nil_of_ne_nil {α : Type} (l : List α) (n : Nat) (hl : l ≠ []) (hn : 1 ≤ n) :
    l.take n ≠ [] := by
  cases l with
  | nil => exact absurd rfl hl
  | cons a t =>
    cases n with
    | zero => omega
    | succ k => simp [List.take]

theorem selFn_decomp (cfg : Config) (w c : String) (since : Int) (M : List Message) :
    M.filter (selFn cfg w c since) =
      (M.filter (matchFilters cfg w c)).filter (fun m => (m.id : Int) > since) := by
  rw [List.filter_filter]
  refine List.filter_congr fun m _ => ?_
  cases hd1 : matchFilters cfg w c m <;> cases hd2 : decide ((m.id : Int) > since) <;>
    simp [selFn, hd1, hd2]

/-- Iterated polling of /messages, feeding each returned cursor back as
the next since value, collecting the pages in order. -/
def pollAll (cfg : Config) (w c : String) (lim? : Option Int) (s : ServerState) :
    Int → Nat → List MsgView
  | _, 0 => []
  | since, fuel + 1 =>
      let r := messagesRoute cfg { worldId := w, channel := c, since := since, limit := lim? } s
      if r.messages.isEmpty then []
      else r.messages ++ pollAll cfg w c lim? s r.cursor fuel

/-- On a log with ascending ids, iterated polling with the returned
cursors enumerates the whole selection, each message exactly once, in
id order, as soon as the poll count covers the selection size. -/
theorem pollAll_eq (cfg : Config) (w c : String) (lim? : Option Int) (s : ServerState)
    (hs : IdsSorted s.MESSAGES) :
    ∀ (fuel : Nat) (since : Int),
      (s.MESSAGES.filter (selFn cfg (jsTrim w) (jsTrim c) since)).length ≤ fuel →
      pollAll cfg w c lim? s since fuel =
        (s.MESSAGES.filter (selFn cfg (jsTrim w) (jsTrim c) since)).map msgView := by
  intro fuel
  induction fuel with
  | zero =>
    intro since hlen
    have hnil : s.MESSAGES.filter (selFn cfg (jsTrim w) (jsTrim c) since) = [] :=
      List.eq_nil_of_length_eq_zero (Nat.le_zero.mp hlen)
    simp [pollAll, hnil]
  | succ n ih =>
    intro since hlen
    rw [pollAll]
    rw [messagesRoute_eq_of_sorted cfg _ s hs]
    set T := s.MESSAGES.filter (selFn cfg (jsTrim w) (jsTrim c) since) with hT
    set lim := clampLimit cfg lim? with hlim
    by_cases hTnil : T = []
    · simp [hTnil]
    · have hpage : T.take lim ≠ [] :=
        take_ne_nil_of_ne_nil T lim hTnil (one_le_clampLimit cfg lim?)
      have hlast := List.getLast?_eq_getLast (T.take lim) hpage
      simp only [hlast]
      have hmapne : (T.take lim).map msgView ≠ [] := by
        simp only [ne_eq, List.map_eq_nil_iff]
        exact hpage
      rw [if_neg (by simpa [List.isEmpty_iff] using hmapne)]
      set mlast := (T.take lim).getLast hpage with hml
      have hF : s.MESSAGES.filter (selFn cfg (jsTrim w) (jsTrim c) (mlast.id : Int)) =
          T.drop lim := by
        rw [selFn_decomp]
        rw [hT, selFn_decomp]
        refine next_page_filter (s.MESSAGES.filter (matchFilters cfg (jsTrim w) (jsTrim c)))
          (idsSorted_filter _ _ hs) since lim mlast ?_
        rw [← selFn_decomp, ← hT]
        rw [List.getLast?_eq_getLast (T.take lim) hpage]
      have hrec := ih (mlast.id : Int) (by
        rw [hF, List.length_drop]
        have h1 : 1 ≤ lim := one_le_clampLimit cfg lim?
        have h2 : T.length ≤ n + 1 := hlen
        omega)
      rw [hrec, hF]
      rw [← List.map_append, List.take_append_drop]

theorem sendRoute_ok_iff (cfg : Config) (r : SendReq) (s : ServerState) :
    (sendRoute cfg r s).1.ok = true ↔
      cfg.COOLDOWN_MS ≤ r.now - ledgerGet s.lastSentByIP r.ip ∧ sendValidate cfg r = none := by
  unfold sendRoute
  split
  · rename_i h
    simp only [errResp]
    constructor
    · intro hh
      cases hh
    · rintro ⟨h1, -⟩
      omega
  · rename_i h
    split
    · rename_i pair heq
      simp only [errResp]
      constructor
      · intro hh
        cases hh
      · rintro ⟨-, h2⟩
        rw [heq] at h2
        cases h2
    · rename_i heq
      simp only [true_iff]
      exact ⟨by omega, heq⟩

theorem sendRoute_ok_state (cfg : Config) (r : SendReq) (s : ServerState)
    (h : (sendRoute cfg r s).1.ok = true) :
    (sendRoute cfg r s).2 =
      { s with AUTO_ID := s.AUTO_ID + 1,
               MESSAGES := s.MESSAGES ++ [sentMessage r s],
               lastSentByIP := assocSet s.lastSentByIP r.ip r.now } ∧
    (sendRoute cfg r s).1.retId = some (s.AUTO_ID + 1) := by
  obtain ⟨h1, h2⟩ := (sendRoute_ok_iff cfg r s).mp h
  unfold sendRoute
  rw [if_neg (by omega), h2]
  exact ⟨rfl, rfl⟩

theorem sendRoute_err_state (cfg : Config) (r : SendReq) (s : ServerState)
    (h : (sendRoute cfg r s).1.ok = false) :
    (sendRoute cfg r s).2 = s := by
  by_cases h1 : r.now - ledgerGet s.lastSentByIP r.ip < cfg.COOLDOWN_MS
  · unfold sendRoute
    rw [if_pos h1]
  · cases hv : sendValidate cfg r with
    | some pair =>
      obtain ⟨st, code⟩ := pair
      unfold sendRoute
      rw [if_neg h1, hv]
    | none =>
      exfalso
      unfold sendRoute at h
      rw [if_neg h1, hv] at h
      exact Bool.noConfusion h

theorem jsonSetRoute_chat (cfg : Config) (r : SetReq) (s : ServerState) :
    (jsonSetRoute cfg r s).2.MESSAGES = s.MESSAGES ∧
      (jsonSetRoute cfg r s).2.AUTO_ID = s.AUTO_ID := by
  simp only [jsonSetRoute]
  repeat' split
  all_goals exact ⟨rfl, rfl⟩

theorem jsonIncRoute_chat (cfg : Config) (r : IncReq) (s : ServerState) :
    (jsonIncRoute cfg r s).2.MESSAGES = s.MESSAGES ∧
      (jsonIncRoute cfg r s).2.AUTO_ID = s.AUTO_ID := by
  simp only [jsonIncRoute]
  repeat' split
  all_goals exact ⟨rfl, rfl⟩

theorem setTotalRoute_chat (cfg : Config) (r : SetTotalReq) (s : ServerState) :
    (setTotalRoute cfg r s).2.MESSAGES = s.MESSAGES ∧
      (setTotalRoute cfg r s).2.AUTO_ID = s.AUTO_ID ∧
      (setTotalRoute cfg r s).2.lastSentByIP = s.lastSentByIP := by
  simp only [setTotalRoute]
  repeat' split
  all_goals exact ⟨rfl, rfl, rfl⟩

theorem pulseRoute_chat (cfg : Config) (r : PulseReq) (s : ServerState) :
    (pulseRoute cfg r s).2.MESSAGES = s.MESSAGES ∧
      (pulseRoute cfg r s).2.AUTO_ID = s.AUTO_ID ∧
      (pulseRoute cfg r s).2.lastSentByIP = s.lastSentByIP := by
  simp only [pulseRoute]
  repeat' split
  all_goals exact ⟨rfl, rfl, rfl⟩

/-- The number of accepted /send requests along a trace. -/
def countOkSends (cfg : Config) : List Req → ServerState → Nat
  | [], _ => 0
  | r :: rest, s =>
      (match r with
       | .send rq => if (sendRoute cfg rq s).1.ok then 1 else 0
       | _ => 0) + countOkSends cfg rest (stepReq cfg r s).2

theorem step_ids (cfg : Config) (r : Req) (s : ServerState)
    (h : s.MESSAGES.map Message.id = List.range' 1 s.AUTO_ID) :
    (stepReq cfg r s).2.MESSAGES.map Message.id =
      List.range' 1 (stepReq cfg r s).2.AUTO_ID := by
  cases r with
  | send rq =>
    simp only [stepReq]
    cases hok : (sendRoute cfg rq s).1.ok with
    | false => rw [sendRoute_err_state cfg rq s hok, h]
    | true =>
      rw [(sendRoute_ok_state cfg rq s hok).1]
      simp only [List.map_append, h, sentMessage, List.map_cons, List.map_nil]
      rw [List.range'_1_concat, Nat.add_comm 1 s.AUTO_ID]
  | jsonSet rq =>
    simp only [stepReq]
    rw [(jsonSetRoute_chat cfg rq s).1, (jsonSetRoute_chat cfg rq s).2, h]
  | jsonInc rq =>
    simp only [stepReq]
    rw [(jsonIncRoute_chat cfg rq s).1, (jsonIncRoute_chat cfg rq s).2, h]
  | setTotal rq =>
    simp only [stepReq]
    rw [(setTotalRoute_chat cfg rq s).1, (setTotalRoute_chat cfg rq s).2.1, h]
  | pulse rq =>
    simp only [stepReq]
    rw [(pulseRoute_chat cfg rq s).1, (pulseRoute_chat cfg rq s).2.1, h]

/-- A core trace invariant: the ids in the log are exactly 1..AUTO_ID,
in order. -/
theorem run_ids (cfg : Config) (rs : List Req) (s : ServerState)
    (h : s.MESSAGES.map Message.id = List.range' 1 s.AUTO_ID) :
    (runTrace cfg rs s).MESSAGES.map Message.id =
      List.range' 1 (runTrace cfg rs s).AUTO_ID := by
  induction rs generalizing s with
  | nil => exact h
  | cons r rest ih => exact ih _ (step_ids cfg r s h)

theorem step_autoId (cfg : Config) (r : Req) (s : ServerState) :
    (stepReq cfg r s).2.AUTO_ID = s.AUTO_ID +
      (match r with
       | .send rq => if (sendRoute cfg rq s).1.ok then 1 else 0
       | _ => 0) := by
  cases r with
  | send rq =>
    simp only [stepReq]
    cases hok : (sendRoute cfg rq s).1.ok with
    | false => rw [sendRoute_err_state cfg rq s hok]; rfl
    | true =>
      rw [(sendRoute_ok_state cfg rq s hok).1]
      simp
  | jsonSet rq => simpa using (jsonSetRoute_chat cfg rq s).2
  | jsonInc rq => simpa using (jsonIncRoute_chat cfg rq s).2
  | setTotal rq => simpa using (setTotalRoute_chat cfg rq s).2.1
  | pulse rq => simpa using (pulseRoute_chat cfg rq s).2.1

/-- The id counter advances by exactly one per accepted send and by
nothing else. -/
theorem run_autoId (cfg : Config) (rs : List Req) (s : ServerState) :
    (runTrace cfg rs s).AUTO_ID = s.AUTO_ID + countOkSends cfg rs s := by
  induction rs generalizing s with
  | nil => rfl
  | cons r rest ih =>
    show (runTrace cfg rest (stepReq cfg r s).2).AUTO_ID = _
    rw [ih, step_autoId]
    simp only [countOkSends]
    omega

theorem sendValidate_none_mem (cfg : Config) (r : SendReq)
    (hne : cfg.ALLOWED_WORLD_IDS ≠ []) (hv : sendValidate cfg r = none) :
    jsTrim r.worldId ∈ cfg.ALLOWED_WORLD_IDS := by
  unfold sendValidate at hv
  split at hv
  · cases hv
  · split at hv
    · cases hv
    · rename_i h2
      rw [not_and_or, not_not] at h2
      rcases h2 with h2 | h2
      · exact absurd h2 hne
      · exact not_not.mp h2

/-- A core trace invariant: when an allow-list is configured, every
stored message carries an allow-listed worldId. -/
theorem run_allowed (cfg : Config) (rs : List Req) (s : ServerState)
    (hne : cfg.ALLOWED_WORLD_IDS ≠ [])
    (h : ∀ m ∈ s.MESSAGES, m.worldId ∈ cfg.ALLOWED_WORLD_IDS) :
    ∀ m ∈ (runTrace cfg rs s).MESSAGES, m.worldId ∈ cfg.ALLOWED_WORLD_IDS := by
  induction rs generalizing s with
  | nil => exact h
  | cons r rest ih =>
    refine ih _ ?_
    cases r with
    | send rq =>
      simp only [stepReq]
      cases hok : (sendRoute cfg rq s).1.ok with
      | false =>
        rw [sendRoute_err_state cfg rq s hok]
        exact h
      | true =>
        rw [(sendRoute_ok_state cfg rq s hok).1]
        intro m hm
        rcases List.mem_append.mp hm with hm | hm
        · exact h m hm
        · rcases List.mem_singleton.mp hm with rfl
          exact sendValidate_none_mem cfg rq hne ((sendRoute_ok_iff cfg rq s).mp hok).2
    | jsonSet rq =>
      simp only [stepReq]
      rw [(jsonSetRoute_chat cfg rq s).1]
      exact h
    | jsonInc rq =>
      simp only [stepReq]
      rw [(jsonIncRoute_chat cfg rq s).1]
      exact h
    | setTotal rq =>
      simp only [stepReq]
      rw [(setTotalRoute_chat cfg rq s).1]
      exact h
    | pulse rq =>
      simp only [stepReq]
      rw [(pulseRoute_chat cfg rq s).1]
      exact h

/-- Consecutive ids ascend, so every reachable log is id-sorted. -/
theorem idsSorted_of_range (l : List Message) (n : Nat)
    (h : l.map Message.id = List.range' 1 n) : IdsSorted l := by
  have hp : (l.map Message.id).Pairwise (fun a b => a < b) := by
    rw [h]
    exact List.pairwise_lt_range' 1 n
  exact (List.pairwise_map.mp hp).imp (fun hab => hab)

theorem splitOnDot_ne_nil (s : String) : splitOnDot s ≠ [] := by
  unfold splitOnDot splitDots
  induction s.data with
  | nil => simp
  | cons c cs ih =>
    simp only [List.foldr_cons]
    by_cases hc : c = '.'
    · simp [hc]
    · rw [if_neg hc]
      rcases hfold : List.foldr _ _ cs with _ | ⟨seg, rest⟩
      · simp
      · simp

theorem getByPath_setByPath (fs : List (String × JValue)) (p : String) (v : JValue)
    (hp : p ≠ "") : getByPath (setByPath (.jobj fs) p v) p = some v := by
  unfold getByPath setByPath
  rw [if_neg hp]
  exact getPath_setPath (splitOnDot p) fs v (splitOnDot_ne_nil p)

/-- Full behaviour of an admitted /json/inc request: read, coerce,
add, write back through the path-set mechanism, record the ledger. -/
theorem jsonIncRoute_ok (cfg : Config) (r : IncReq) (s : ServerState)
    (h1 : cfg.COOLDOWN_MS ≤ r.now - ledgerGet s.lastSentByIP r.ip)
    (h2 : ¬(cfg.WRITE_TOKEN ≠ "" ∧ jsTrim r.token ≠ cfg.WRITE_TOKEN))
    (h3 : r.pathStr ≠ "")
    (h4 : ¬(cfg.ALLOWED_WORLD_IDS ≠ [] ∧ jsTrim r.worldId ≠ "" ∧
        jsTrim r.worldId ∉ cfg.ALLOWED_WORLD_IDS))
    (delta : Int) (h5 : jsStrToNumber (r.by_.getD "1") = some delta) :
    jsonIncRoute cfg r s =
      ({ status := 200, ok := true,
         retVal := some (.jnum (numOrZero (getByPath s.STORE r.pathStr) + delta)),
         retTs := some r.tsIso },
       { s with STORE := setByPath s.STORE r.pathStr
                  (.jnum (numOrZero (getByPath s.STORE r.pathStr) + delta)),
                lastSentByIP := assocSet s.lastSentByIP r.ip r.now }) := by
  unfold jsonIncRoute
  rw [if_neg (by omega), if_neg h2, if_neg h3, if_neg h4, h5]

/-- A non-finite delta is rejected before any read or write: the state
is untouched. -/
theorem jsonIncRoute_nonfinite (cfg : Config) (r : IncReq) (s : ServerState)
    (h5 : jsStrToNumber (r.by_.getD "1") = none) :
    (jsonIncRoute cfg r s).2 = s ∧
      ((jsonIncRoute cfg r s).1.ok = false) := by
  unfold jsonIncRoute
  split
  · exact ⟨rfl, rfl⟩
  · split
    · exact ⟨rfl, rfl⟩
    · split
      · exact ⟨rfl, rfl⟩
      · split
        · exact ⟨rfl, rfl⟩
        · rw [h5]
          exact ⟨rfl, rfl⟩

/-- An accepted /json/set passed the cooldown gate and records the
request time in the shared ledger. -/
theorem jsonSetRoute_accept (cfg : Config) (r : SetReq) (s : ServerState)
    (h : (jsonSetRoute cfg r s).1.ok = true) :
    cfg.COOLDOWN_MS ≤ r.now - ledgerGet s.lastSentByIP r.ip ∧
      (jsonSetRoute cfg r s).2.lastSentByIP = assocSet s.lastSentByIP r.ip r.now := by
  by_cases hrate : r.now - ledgerGet s.lastSentByIP r.ip < cfg.COOLDOWN_MS
  · exfalso
    unfold jsonSetRoute at h
    rw [if_pos hrate] at h
    exact Bool.noConfusion h
  · refine ⟨by omega, ?_⟩
    unfold jsonSetRoute at h ⊢
    rw [if_neg hrate] at h ⊢
    split at h
    · exact Bool.noConfusion h
    · rename_i htok
      split at h
      · exact Bool.noConfusion h
      · rename_i hnp
        split at h
        · exact Bool.noConfusion h
        · rename_i v hv
          rw [if_neg htok, if_neg hnp]

/-- The /json/set analogue of sendRoute_ok_iff is not needed; what C2
needs of /send is that acceptance implies the gate passed and the
ledger was stamped. -/
theorem sendRoute_accept (cfg : Config) (r : SendReq) (s : ServerState)
    (h : (sendRoute cfg r s).1.ok = true) :
    cfg.COOLDOWN_MS ≤ r.now - ledgerGet s.lastSentByIP r.ip ∧
      (sendRoute cfg r s).2.lastSentByIP = assocSet s.lastSentByIP r.ip r.now := by
  refine ⟨((sendRoute_ok_iff cfg r s).mp h).1, ?_⟩
  rw [(sendRoute_ok_state cfg r s h).1]

theorem jsonIncRoute_accept (cfg : Config) (r : IncReq) (s : ServerState)
    (h : (jsonIncRoute cfg r s).1.ok = true) :
    cfg.COOLDOWN_MS ≤ r.now - ledgerGet s.lastSentByIP r.ip ∧
      (jsonIncRoute cfg r s).2.lastSentByIP = assocSet s.lastSentByIP r.ip r.now := by
  by_cases hrate : r.now - ledgerGet s.lastSentByIP r.ip < cfg.COOLDOWN_MS
  · exfalso
    unfold jsonIncRoute at h
    rw [if_pos hrate] at h
    exact Bool.noConfusion h
  · refine ⟨by omega, ?_⟩
    unfold jsonIncRoute at h ⊢
    rw [if_neg hrate] at h ⊢
    split at h
    · exact Bool.noConfusion h
    · rename_i htok
      split at h
      · exact Bool.noConfusion h
      · rename_i hp
        split at h
        · exact Bool.noConfusion h
        · rename_i hw
          split at h
          · exact Bool.noConfusion h
          · rename_i delta hdelta
            rw [if_neg htok, if_neg hp, if_neg hw]

/-- The /json/setTotal handler ignores the rate-limit ledger wholesale:
its response and its effect on the rest of the state are the same for
every ledger, and the ledger is passed through unchanged. -/
theorem setTotalRoute_ledger_blind (cfg : Config) (r : SetTotalReq) (s : ServerState)
    (L : List (String × Int)) :
    (setTotalRoute cfg r { s with lastSentByIP := L }).1 = (setTotalRoute cfg r s).1 ∧
      (setTotalRoute cfg r { s with lastSentByIP := L }).2.docs =
        (setTotalRoute cfg r s).2.docs := by
  unfold setTotalRoute
  repeat' split
  all_goals exact ⟨rfl, rfl⟩

theorem pulseRoute_ledger_blind (cfg : Config) (r : PulseReq) (s : ServerState)
    (L : List (String × Int)) :
    (pulseRoute cfg r { s with lastSentByIP := L }).1 = (pulseRoute cfg r s).1 ∧
      (pulseRoute cfg r { s with lastSentByIP := L }).2.docs =
        (pulseRoute cfg r s).2.docs := by
  unfold pulseRoute
  repeat' split
  all_goals exact ⟨rfl, rfl⟩

/-- The default configuration of the server (no allow-list, no write
token, MAX_LEN 200, COOLDOWN_MS 2000, DEFAULT_LIMIT 100), used by the
concrete instantiations below. -/
def cfgOpen : Config :=
  { ALLOWED_WORLD_IDS := [], MAX_LEN := 200, COOLDOWN_MS := 2000,
    DEFAULT_LIMIT := 100, WRITE_TOKEN := "" }

/-- The default configuration with an allow-list of two worlds. -/
def cfgListed : Config :=
  { ALLOWED_WORLD_IDS := ["worldA", "worldB"], MAX_LEN := 200, COOLDOWN_MS := 2000,
    DEFAULT_LIMIT := 100, WRITE_TOKEN := "" }

/-- C4: for every document tree, set of a value at a.b.c followed by get
of a.b.c returns that value; and when a.b did not previously hold a
container, get of a.b afterwards returns exactly the object binding c to
that value (fresh-path round trip through the prefix). -/
theorem set_get_roundtrip :
    (∀ (fs : List (String × JValue)) (v : JValue),
        getByPath (setByPath (.jobj fs) "a.b.c" v) "a.b.c" = some v) ∧
    (∀ (fs : List (String × JValue)) (v : JValue),
        (∀ x, getByPath (.jobj fs) "a.b" = some x → x.isContainer = false) →
        getByPath (setByPath (.jobj fs) "a.b.c" v) "a.b" = some (.jobj [("c", v)])) := by
  constructor
  · intro fs v
    exact getByPath_setByPath fs "a.b.c" v (by decide)
  · intro fs v hfresh
    have hsplit3 : splitOnDot "a.b.c" = ["a", "b", "c"] := rfl
    have hsplit2 : splitOnDot "a.b" = ["a", "b"] := rfl
    have hget : getByPath (.jobj fs) "a.b" = getPath (.jobj fs) ["a", "b"] := rfl
    show getByPath (setPath (.jobj fs) (splitOnDot "a.b.c") v) "a.b" = _
    rw [hsplit3]
    show getPath (setPath (.jobj fs) ["a", "b", "c"] v) (splitOnDot "a.b") = _
    rw [hsplit2]
    cases hA : assocGet fs "a" with
    | none =>
      rw [setPath_fresh fs "a" ["b", "c"] v (by simp)
        (fun x hx => by rw [hA] at hx; cases hx)]
      simp only [getPath, assocGet_assocSet_self, chainOf]
      rfl
    | some cA =>
      cases cA with
      | jobj g =>
        rw [setPath_descend fs "a" g ["b", "c"] v hA (by simp)]
        simp only [getPath, assocGet_assocSet_self]
        have hAB : getPath (.jobj fs) ["a", "b"] =
            (assocGet g "b").bind (fun x => some x) := by
          simp only [getPath, hA]
          cases assocGet g "b" <;> rfl
        have hbfresh : ∀ x, assocGet g "b" = some x → x.isContainer = false := by
          intro x hx
          apply hfresh x
          rw [hget, hAB, hx]
          rfl
        cases hB : assocGet g "b" with
        | none =>
          simp only [hB, setPath, assocGet_assocSet_self]
          rfl
        | some x =>
          have hx := hbfresh x hB
          simp only [hB, hx, Bool.false_eq_true, if_false, setPath, assocGet_assocSet_self]
          rfl
      | jnull =>
        rw [setPath_fresh fs "a" ["b", "c"] v (by simp)
          (fun x hx => by rw [hA] at hx; cases hx; rfl)]
        simp only [getPath, assocGet_assocSet_self, chainOf]
        rfl
      | jbool b =>
        rw [setPath_fresh fs "a" ["b", "c"] v (by simp)
          (fun x hx => by rw [hA] at hx; cases hx; rfl)]
        simp only [getPath, assocGet_assocSet_self, chainOf]
        rfl
      | jnum n =>
        rw [setPath_fresh fs "a" ["b", "c"] v (by simp)
          (fun x hx => by rw [hA] at hx; cases hx; rfl)]
        simp only [getPath, assocGet_assocSet_self, chainOf]
        rfl
      | jstr str =>
        rw [setPath_fresh fs "a" ["b", "c"] v (by simp)
          (fun x hx => by rw [hA] at hx; cases hx; rfl)]
        simp only [getPath, assocGet_assocSet_self, chainOf]
        rfl

/-- C4 witness: on the empty document, set a.b.c to 42, get a.b.c gives
42 and get a.b gives exactly the binding c to 42. -/
theorem set_get_roundtrip_witness :
    getByPath (setByPath (.jobj []) "a.b.c" (.jnum 42)) "a.b.c" = some (.jnum 42) ∧
    getByPath (setByPath (.jobj []) "a.b.c" (.jnum 42)) "a.b" =
      some (.jobj [("c", .jnum 42)]) := by
  refine ⟨set_get_roundtrip.1 [] (.jnum 42), set_get_roundtrip.2 [] (.jnum 42) ?_⟩
  intro x hx
  have hnone : getByPath (JValue.jobj []) "a.b" = none := rfl
  rw [hnone] at hx
  cases hx

/-- C8: writing a value through a dotted path one of whose intermediate
segments holds a non-container value replaces that value with an empty
container and builds the fresh chain of singleton objects down to the
final segment, where the value is assigned: the old value is gone and
nothing is merged. -/
theorem set_replaces_noncontainer_intermediate
    (fs g : List (String × JValue)) (p : String) (pre : List String) (k : String)
    (rest : List String) (v w : JValue)
    (hsplit : splitOnDot p = pre ++ k :: rest) (hrest : rest ≠ [])
    (hpre : getPath (.jobj fs) pre = some (.jobj g))
    (hk : assocGet g k = some w) (hw : w.isContainer = false) :
    getPath (setByPath (.jobj fs) p v) (pre ++ [k]) = some (chainOf rest v) := by
  unfold setByPath
  rw [hsplit]
  exact getPath_setPath_replaced pre fs g k rest v w hrest hpre hk hw

/-- C8 witness: on a document where a holds the number 7, writing 1
through a.b turns a into exactly the object binding b to 1. -/
theorem set_replaces_noncontainer_intermediate_witness :
    splitOnDot "a.b" = [] ++ "a" :: ["b"] ∧
    getPath (.jobj [("a", .jnum 7)]) [] = some (.jobj [("a", .jnum 7)]) ∧
    assocGet [("a", JValue.jnum 7)] "a" = some (.jnum 7) ∧
    (JValue.jnum 7).isContainer = false ∧
    getPath (setByPath (.jobj [("a", .jnum 7)]) "a.b" (.jnum 1)) ([] ++ ["a"]) =
      some (chainOf ["b"] (.jnum 1)) :=
  ⟨rfl, rfl, rfl, rfl,
    set_replaces_noncontainer_intermediate [("a", .jnum 7)] [("a", .jnum 7)] "a.b" []
      "a" ["b"] (.jnum 1) (.jnum 7) rfl (by simp) rfl rfl rfl⟩

/-- A state in which a write from ip1 was accepted at time 1000. -/
def c9state : ServerState := { initialState with lastSentByIP := [("ip1", 1000)] }

/-- A send with an absent worldId, otherwise valid, issued from ip1 at
time 1500, inside the 2000ms cooldown window. -/
def c9req : SendReq :=
  { ip := "ip1", worldId := "", channel := "", username := "", text := "hello",
    now := 1500, uuid := "u", tsIso := "t" }

/-- C9 counterexample: a rate-limited send with an absent worldId is
rejected with rate-limit, not with worldId-required, because the
cooldown gate runs before any validation. -/
theorem empty_worldId_not_always_worldId_required :
    jsTrim c9req.worldId = "" ∧
    (sendRoute cfgOpen c9req c9state).1 = errResp 429 "rate-limit" ∧
    (sendRoute cfgOpen c9req c9state).1 ≠ errResp 400 "worldId-required" := by
  refine ⟨rfl, rfl, fun h => ?_⟩
  have heq : errResp 429 "rate-limit" = errResp 400 "worldId-required" := by
    rw [← h]
    rfl
  exact absurd (congrArg HResp.status heq) (by decide)

/-- C9 amended: a send whose worldId is absent or trims to the empty
string is always rejected with no state change at all (log, counter,
ledger, stores); the error is worldId-required whenever the request
passes the cooldown gate, and rate-limit otherwise. -/
theorem empty_worldId_rejected (cfg : Config) (s : ServerState) (r : SendReq)
    (hw : jsTrim r.worldId = "") :
    (sendRoute cfg r s).2 = s ∧
    (sendRoute cfg r s).1.ok = false ∧
    (cfg.COOLDOWN_MS ≤ r.now - ledgerGet s.lastSentByIP r.ip →
      (sendRoute cfg r s).1 = errResp 400 "worldId-required") := by
  have hv : sendValidate cfg r = some (400, "worldId-required") := by
    unfold sendValidate
    rw [if_pos hw]
  by_cases h1 : r.now - ledgerGet s.lastSentByIP r.ip < cfg.COOLDOWN_MS
  · unfold sendRoute
    rw [if_pos h1]
    exact ⟨rfl, rfl, fun h => absurd h (by omega)⟩
  · unfold sendRoute
    rw [if_neg h1, hv]
    exact ⟨rfl, rfl, fun _ => rfl⟩

/-- A send whose worldId trims to empty, from a fresh identity outside
any cooldown window. -/
def c9okReq : SendReq :=
  { ip := "ip2", worldId := "  ", channel := "", username := "", text := "hello",
    now := 10000, uuid := "u", tsIso := "t" }

/-- C9 witness: the amended claim at a concrete admitted request. -/
theorem empty_worldId_rejected_witness :
    (sendRoute cfgOpen c9okReq initialState).2 = initialState ∧
    (sendRoute cfgOpen c9okReq initialState).1 = errResp 400 "worldId-required" :=
  ⟨(empty_worldId_rejected cfgOpen initialState c9okReq rfl).1,
   (empty_worldId_rejected cfgOpen initialState c9okReq rfl).2.2 (by decide)⟩

/-- C10: with an empty (unconfigured) allow-list, the worldId filter
parameter of both the incremental query and the snapshot is ignored
entirely: any supplied worldId produces exactly the result of the same
call with no worldId filter. -/
theorem empty_allowlist_ignores_worldId (cfg : Config)
    (hempty : cfg.ALLOWED_WORLD_IDS = []) (s : ServerState)
    (q : MessagesReq) (q2 : SnapshotReq) :
    messagesRoute cfg q s = messagesRoute cfg { q with worldId := "" } s ∧
    messagesJsonRoute cfg q2 s = messagesJsonRoute cfg { q2 with worldId := "" } s := by
  constructor
  · simp [messagesRoute, hempty]
  · simp [messagesJsonRoute, hempty]

/-- A stored message in worldA. -/
def msgA : Message :=
  { id := 1, uuid := "u1", worldId := "worldA", channel := "global",
    username := "Guest", text := "m1", timestamp := "t1" }

/-- A stored message in worldB. -/
def msgB : Message :=
  { id := 2, uuid := "u2", worldId := "worldB", channel := "global",
    username := "Guest", text := "m2", timestamp := "t2" }

/-- A log holding messages from two different worlds. -/
def twoWorldState : ServerState :=
  { initialState with AUTO_ID := 2, MESSAGES := [msgA, msgB] }

/-- C10 witness: with the allow-list empty, querying with the filter
worldA returns the messages of both worlds, exactly as with no filter. -/
theorem empty_allowlist_ignores_worldId_witness :
    messagesRoute cfgOpen
        { worldId := "worldA", channel := "", since := 0, limit := none } twoWorldState =
      messagesRoute cfgOpen
        { worldId := "", channel := "", since := 0, limit := none } twoWorldState ∧
    messagesJsonRoute cfgOpen
        { worldId := "worldA", channel := "", limit := none } twoWorldState =
      messagesJsonRoute cfgOpen
        { worldId := "", channel := "", limit := none } twoWorldState ∧
    (messagesRoute cfgOpen
        { worldId := "worldA", channel := "", since := 0, limit := none }
        twoWorldState).messages.map MsgView.worldId = ["worldA", "worldB"] :=
  ⟨(empty_allowlist_ignores_worldId cfgOpen rfl twoWorldState
      { worldId := "worldA", channel := "", since := 0, limit := none }
      { worldId := "worldA", channel := "", limit := none }).1,
   (empty_allowlist_ignores_worldId cfgOpen rfl twoWorldState
      { worldId := "worldA", channel := "", since := 0, limit := none }
      { worldId := "worldA", channel := "", limit := none }).2,
   by decide⟩

/-- A STORE holding the boolean true at path c. -/
def boolStoreState : ServerState := { initialState with STORE := .jobj [("c", .jbool true)] }

/-- An /json/inc request on path c with delta string d at time t. -/
def incReqC (d : String) (t : Int) : IncReq :=
  { ip := "ip1", token := "", worldId := "", pathStr := "c", by_ := some d,
    now := t, tsIso := "ts" }

/-- C5 counterexample: with the non-numeric value true stored at the
path, an increment by 1 returns 2, not 1: the handler coerces the
current value with Number() (true coerces to 1), it does not treat
every non-numeric value as 0. -/
theorem inc_nonnumeric_coercion_counterexample :
    boolStoreState.STORE = .jobj [("c", .jbool true)] ∧
    (jsonIncRoute cfgOpen (incReqC "1" 10000) boolStoreState).1.retVal = some (.jnum 2) ∧
    (jsonIncRoute cfgOpen (incReqC "1" 10000) boolStoreState).1.retVal ≠ some (.jnum 1) := by
  refine ⟨rfl, rfl, fun h => ?_⟩
  have heq : (some (JValue.jnum 2) : Option JValue) = some (.jnum 1) := by
    rw [← h]
    rfl
  exact absurd (JValue.jnum.inj (Option.some.inj heq)) (by decide)

/-- C5 amended: /json/inc reads the current value at the path, coerces
it with the JavaScript Number coercion followed by the or-zero idiom
(absent values, null, empty or non-numeric strings and objects give 0,
booleans give 0 or 1, numeric strings give their value), adds the
finite delta, writes the sum back through the same path-set mechanism
and returns it; a non-finite delta is rejected with no mutation; and
two increments by 60 from a value coercing to 0 yield 120, exactly the
result of two sequential path-set writes of the running sums 60 and
120. -/
theorem inc_read_add_write_semantics :
    (∀ (cfg : Config) (s : ServerState) (r : IncReq) (delta : Int),
      cfg.COOLDOWN_MS ≤ r.now - ledgerGet s.lastSentByIP r.ip →
      ¬(cfg.WRITE_TOKEN ≠ "" ∧ jsTrim r.token ≠ cfg.WRITE_TOKEN) →
      r.pathStr ≠ "" →
      ¬(cfg.ALLOWED_WORLD_IDS ≠ [] ∧ jsTrim r.worldId ≠ "" ∧
          jsTrim r.worldId ∉ cfg.ALLOWED_WORLD_IDS) →
      jsStrToNumber (r.by_.getD "1") = some delta →
      (jsonIncRoute cfg r s).1.ok = true ∧
      (jsonIncRoute cfg r s).1.retVal =
        some (.jnum (numOrZero (getByPath s.STORE r.pathStr) + delta)) ∧
      (jsonIncRoute cfg r s).2.STORE =
        setByPath s.STORE r.pathStr
          (.jnum (numOrZero (getByPath s.STORE r.pathStr) + delta))) ∧
    (∀ (cfg : Config) (s : ServerState) (r : IncReq),
      jsStrToNumber (r.by_.getD "1") = none →
      (jsonIncRoute cfg r s).2 = s ∧ (jsonIncRoute cfg r s).1.ok = false) ∧
    (∀ (cfg : Config) (fs : List (String × JValue)) (s : ServerState) (r1 r2 : IncReq),
      s.STORE = .jobj fs →
      r1.pathStr ≠ "" → r2.pathStr = r1.pathStr → r2.ip = r1.ip →
      jsStrToNumber (r1.by_.getD "1") = some 60 →
      jsStrToNumber (r2.by_.getD "1") = some 60 →
      numOrZero (getByPath s.STORE r1.pathStr) = 0 →
      cfg.COOLDOWN_MS ≤ r1.now - ledgerGet s.lastSentByIP r1.ip →
      cfg.COOLDOWN_MS ≤ r2.now - r1.now →
      ¬(cfg.WRITE_TOKEN ≠ "" ∧ jsTrim r1.token ≠ cfg.WRITE_TOKEN) →
      ¬(cfg.WRITE_TOKEN ≠ "" ∧ jsTrim r2.token ≠ cfg.WRITE_TOKEN) →
      ¬(cfg.ALLOWED_WORLD_IDS ≠ [] ∧ jsTrim r1.worldId ≠ "" ∧
          jsTrim r1.worldId ∉ cfg.ALLOWED_WORLD_IDS) →
      ¬(cfg.ALLOWED_WORLD_IDS ≠ [] ∧ jsTrim r2.worldId ≠ "" ∧
          jsTrim r2.worldId ∉ cfg.ALLOWED_WORLD_IDS) →
      (jsonIncRoute cfg r2 (jsonIncRoute cfg r1 s).2).1.retVal = some (.jnum 120) ∧
      (jsonIncRoute cfg r2 (jsonIncRoute cfg r1 s).2).2.STORE =
        setByPath (setByPath s.STORE r1.pathStr (.jnum 60)) r1.pathStr (.jnum 120)) := by
  refine ⟨?_, ?_, ?_⟩
  · intro cfg s r delta h1 h2 h3 h4 h5
    rw [jsonIncRoute_ok cfg r s h1 h2 h3 h4 delta h5]
    exact ⟨rfl, rfl, rfl⟩
  · intro cfg s r h5
    exact jsonIncRoute_nonfinite cfg r s h5
  · intro cfg fs s r1 r2 hS hp1 hp2 hip h60a h60b hstart hcd1 hcd2 htok1 htok2 hw1 hw2
    have step1 := jsonIncRoute_ok cfg r1 s hcd1 htok1 hp1 hw1 60 h60a
    rw [hstart, zero_add] at step1
    have hs1 : (jsonIncRoute cfg r1 s).2 =
        { s with STORE := setByPath s.STORE r1.pathStr (.jnum 60),
                 lastSentByIP := assocSet s.lastSentByIP r1.ip r1.now } := by
      rw [step1]
    have hled : ledgerGet (jsonIncRoute cfg r1 s).2.lastSentByIP r2.ip = r1.now := by
      rw [hs1, hip]
      simp [ledgerGet, assocGet_assocSet_self]
    have hcur : numOrZero (getByPath (jsonIncRoute cfg r1 s).2.STORE r2.pathStr) = 60 := by
      rw [hs1, hp2, hS]
      rw [getByPath_setByPath fs r1.pathStr (.jnum 60) hp1]
      rfl
    have step2 := jsonIncRoute_ok cfg r2 (jsonIncRoute cfg r1 s).2
      (by rw [hled]; omega) htok2 (by rw [hp2]; exact hp1) hw2 60 h60b
    rw [hcur] at step2
    rw [step2]
    refine ⟨by norm_num, ?_⟩
    show setByPath (jsonIncRoute cfg r1 s).2.STORE r2.pathStr (.jnum (60 + 60)) = _
    rw [hs1, hp2]
    norm_num

/-- C5 witness: both the general read-add-write clause and the
two-increments-give-120 clause at concrete inputs (path c absent from
the empty STORE, deltas written as the string 60). -/
theorem inc_read_add_write_semantics_witness :
    (jsonIncRoute cfgOpen (incReqC "60" 10000) initialState).1.retVal =
      some (.jnum (numOrZero (getByPath initialState.STORE "c") + 60)) ∧
    (jsonIncRoute cfgOpen (incReqC "60" 15000)
        (jsonIncRoute cfgOpen (incReqC "60" 10000) initialState).2).1.retVal =
      some (.jnum 120) ∧
    (jsonIncRoute cfgOpen (incReqC "60" 15000)
        (jsonIncRoute cfgOpen (incReqC "60" 10000) initialState).2).2.STORE =
      setByPath (setByPath initialState.STORE "c" (.jnum 60)) "c" (.jnum 120) :=
  ⟨(inc_read_add_write_semantics.1 cfgOpen initialState (incReqC "60" 10000) 60
      (by decide) (by decide) (by decide) (by decide) rfl).2.1,
   (inc_read_add_write_semantics.2.2 cfgOpen [] initialState
      (incReqC "60" 10000) (incReqC "60" 15000) rfl (by decide) rfl rfl rfl rfl rfl
      (by decide) (by decide) (by decide) (by decide) (by decide) (by decide)).1,
   (inc_read_add_write_semantics.2.2 cfgOpen [] initialState
      (incReqC "60" 10000) (incReqC "60" 15000) rfl (by decide) rfl rfl rfl rfl rfl
      (by decide) (by decide) (by decide) (by decide) (by decide) (by decide)).2⟩

theorem jsonSetRoute_ok_iff (cfg : Config) (r : SetReq) (s : ServerState) :
    (jsonSetRoute cfg r s).1.ok = true ↔
      (cfg.COOLDOWN_MS ≤ r.now - ledgerGet s.lastSentByIP r.ip ∧
       ¬(cfg.WRITE_TOKEN ≠ "" ∧ jsTrim r.token ≠ cfg.WRITE_TOKEN) ∧
       jsTrim r.pathStr ≠ "" ∧ ∃ v, setParseValue r = some v) := by
  unfold jsonSetRoute
  by_cases h1 : r.now - ledgerGet s.lastSentByIP r.ip < cfg.COOLDOWN_MS
  · rw [if_pos h1]
    exact ⟨fun hh => Bool.noConfusion hh, fun h => absurd h.1 (by omega)⟩
  · rw [if_neg h1]
    by_cases h2 : cfg.WRITE_TOKEN ≠ "" ∧ jsTrim r.token ≠ cfg.WRITE_TOKEN
    · rw [if_pos h2]
      exact ⟨fun hh => Bool.noConfusion hh, fun h => absurd h2 h.2.1⟩
    · rw [if_neg h2]
      by_cases h3 : jsTrim r.pathStr = ""
      · rw [if_pos h3]
        exact ⟨fun hh => Bool.noConfusion hh, fun h => absurd h3 h.2.2.1⟩
      · rw [if_neg h3]
        cases hv : setParseValue r with
        | none =>
          refine ⟨fun hh => Bool.noConfusion hh, ?_⟩
          rintro ⟨-, -, -, v, hx⟩
          cases hx
        | some v => exact ⟨fun _ => ⟨by omega, h2, h3, v, rfl⟩, fun _ => rfl⟩

theorem jsonIncRoute_ok_iff (cfg : Config) (r : IncReq) (s : ServerState) :
    (jsonIncRoute cfg r s).1.ok = true ↔
      (cfg.COOLDOWN_MS ≤ r.now - ledgerGet s.lastSentByIP r.ip ∧
       ¬(cfg.WRITE_TOKEN ≠ "" ∧ jsTrim r.token ≠ cfg.WRITE_TOKEN) ∧
       r.pathStr ≠ "" ∧
       ¬(cfg.ALLOWED_WORLD_IDS ≠ [] ∧ jsTrim r.worldId ≠ "" ∧
           jsTrim r.worldId ∉ cfg.ALLOWED_WORLD_IDS) ∧
       ∃ delta, jsStrToNumber (r.by_.getD "1") = some delta) := by
  unfold jsonIncRoute
  by_cases h1 : r.now - ledgerGet s.lastSentByIP r.ip < cfg.COOLDOWN_MS
  · rw [if_pos h1]
    exact ⟨fun hh => Bool.noConfusion hh, fun h => absurd h.1 (by omega)⟩
  · rw [if_neg h1]
    by_cases h2 : cfg.WRITE_TOKEN ≠ "" ∧ jsTrim r.token ≠ cfg.WRITE_TOKEN
    · rw [if_pos h2]
      exact ⟨fun hh => Bool.noConfusion hh, fun h => absurd h2 h.2.1⟩
    · rw [if_neg h2]
      by_cases h3 : r.pathStr = ""
      · rw [if_pos h3]
        exact ⟨fun hh => Bool.noConfusion hh, fun h => absurd h3 h.2.2.1⟩
      · rw [if_neg h3]
        by_cases h4 : cfg.ALLOWED_WORLD_IDS ≠ [] ∧ jsTrim r.worldId ≠ "" ∧
            jsTrim r.worldId ∉ cfg.ALLOWED_WORLD_IDS
        · rw [if_pos h4]
          exact ⟨fun hh => Bool.noConfusion hh, fun h => absurd h4 h.2.2.2.1⟩
        · rw [if_neg h4]
          cases hv : jsStrToNumber (r.by_.getD "1") with
          | none =>
            refine ⟨fun hh => Bool.noConfusion hh, ?_⟩
            rintro ⟨-, -, -, -, d, hx⟩
            cases hx
          | some d => exact ⟨fun _ => ⟨by omega, h2, h3, h4, d, rfl⟩, fun _ => rfl⟩

/-- A ledger recording an accepted write from ip1 at time 1000. -/
def c2state : ServerState := { initialState with lastSentByIP := [("ip1", 1000)] }

/-- A valid setTotal registration request. -/
def c2total : SetTotalReq := { token := "", doc := "", player := "Hyroe", ms := "5" }

/-- C2 counterexample: the setTotal registration write is accepted and
mutates the document store although the shared ledger records an
accepted write at time 1000 (any request time within 2000ms of it is
inside the cooldown window), and it records nothing in the ledger: the
route carries no rate-limit gate at all, so the limiter is not applied
to every state-mutating entry point. -/
theorem rate_limiter_not_uniform_counterexample :
    (setTotalRoute cfgOpen c2total c2state).1.ok = true ∧
    (setTotalRoute cfgOpen c2total c2state).2.docs =
      [("store", .jobj [("players", .jobj [("Hyroe", .jobj [("playMs", .jnum 5)])])])] ∧
    (setTotalRoute cfgOpen c2total c2state).2.lastSentByIP = c2state.lastSentByIP :=
  ⟨rfl, rfl, rfl⟩

/-- C2 amended: the shared per-identity rate limiter guards the /send,
/json/set and /json/inc writes: any accepted request of those kinds
passed the cooldown window for its identity and stamps its time into
the single shared ledger.  The /json/setTotal and /json/pulse writes
bypass the limiter entirely: their outcome is independent of the
ledger and they never record anything in it. -/
theorem rate_limiter_coverage (cfg : Config) (s : ServerState) :
    (∀ r : SendReq, (sendRoute cfg r s).1.ok = true →
        cfg.COOLDOWN_MS ≤ r.now - ledgerGet s.lastSentByIP r.ip ∧
        (sendRoute cfg r s).2.lastSentByIP = assocSet s.lastSentByIP r.ip r.now) ∧
    (∀ r : SetReq, (jsonSetRoute cfg r s).1.ok = true →
        cfg.COOLDOWN_MS ≤ r.now - ledgerGet s.lastSentByIP r.ip ∧
        (jsonSetRoute cfg r s).2.lastSentByIP = assocSet s.lastSentByIP r.ip r.now) ∧
    (∀ r : IncReq, (jsonIncRoute cfg r s).1.ok = true →
        cfg.COOLDOWN_MS ≤ r.now - ledgerGet s.lastSentByIP r.ip ∧
        (jsonIncRoute cfg r s).2.lastSentByIP = assocSet s.lastSentByIP r.ip r.now) ∧
    (∀ (r : SetTotalReq) (L : List (String × Int)),
        (setTotalRoute cfg r s).2.lastSentByIP = s.lastSentByIP ∧
        (setTotalRoute cfg r { s with lastSentByIP := L }).1 = (setTotalRoute cfg r s).1) ∧
    (∀ (r : PulseReq) (L : List (String × Int)),
        (pulseRoute cfg r s).2.lastSentByIP = s.lastSentByIP ∧
        (pulseRoute cfg r { s with lastSentByIP := L }).1 = (pulseRoute cfg r s).1) :=
  ⟨fun r h => sendRoute_accept cfg r s h,
   fun r h => jsonSetRoute_accept cfg r s h,
   fun r h => jsonIncRoute_accept cfg r s h,
   fun r L => ⟨(setTotalRoute_chat cfg r s).2.2, (setTotalRoute_ledger_blind cfg r s L).1⟩,
   fun r L => ⟨(pulseRoute_chat cfg r s).2.2, (pulseRoute_ledger_blind cfg r s L).1⟩⟩

/-- A valid send request from ip1 at time 10000. -/
def witSend : SendReq :=
  { ip := "ip1", worldId := "worldA", channel := "", username := "", text := "hi",
    now := 10000, uuid := "u", tsIso := "t" }

/-- A valid document write from ip1 at time 10000. -/
def witSet : SetReq :=
  { ip := "ip1", token := "", doc := "", pathStr := "a", value := "1",
    valueJson := none, now := 10000, tsIso := "t" }

/-- C2 witness: the amended coverage at concrete accepted requests of
each kind on the initial state. -/
theorem rate_limiter_coverage_witness :
    (cfgOpen.COOLDOWN_MS ≤ witSend.now - ledgerGet initialState.lastSentByIP witSend.ip ∧
      (sendRoute cfgOpen witSend initialState).2.lastSentByIP =
        assocSet initialState.lastSentByIP witSend.ip witSend.now) ∧
    (cfgOpen.COOLDOWN_MS ≤ witSet.now - ledgerGet initialState.lastSentByIP witSet.ip ∧
      (jsonSetRoute cfgOpen witSet initialState).2.lastSentByIP =
        assocSet initialState.lastSentByIP witSet.ip witSet.now) ∧
    (cfgOpen.COOLDOWN_MS ≤ (incReqC "1" 10000).now -
        ledgerGet initialState.lastSentByIP (incReqC "1" 10000).ip ∧
      (jsonIncRoute cfgOpen (incReqC "1" 10000) initialState).2.lastSentByIP =
        assocSet initialState.lastSentByIP (incReqC "1" 10000).ip
          (incReqC "1" 10000).now) ∧
    ((setTotalRoute cfgOpen c2total initialState).2.lastSentByIP =
        initialState.lastSentByIP ∧
      (setTotalRoute cfgOpen c2total
          { initialState with lastSentByIP := [("ip9", 42)] }).1 =
        (setTotalRoute cfgOpen c2total initialState).1) :=
  ⟨(rate_limiter_coverage cfgOpen initialState).1 witSend rfl,
   (rate_limiter_coverage cfgOpen initialState).2.1 witSet rfl,
   (rate_limiter_coverage cfgOpen initialState).2.2.1 (incReqC "1" 10000) rfl,
   (rate_limiter_coverage cfgOpen initialState).2.2.2.1 c2total [("ip9", 42)]⟩

/-- A valid pulse request. -/
def c7pulse : PulseReq := { token := "", doc := "", player := "P", addMs := "5" }

/-- C7 counterexample: the /json/pulse write admits a second write
immediately after a first accepted one (the route has no rate-limit
gate and samples no clock, so any separation below the cooldown window
behaves the same): the second write is not rejected and increments the
store again. -/
theorem cooldown_not_enforced_for_pulse_counterexample :
    (pulseRoute cfgOpen c7pulse initialState).1.ok = true ∧
    (pulseRoute cfgOpen c7pulse (pulseRoute cfgOpen c7pulse initialState).2).1.ok = true ∧
    (pulseRoute cfgOpen c7pulse
        (pulseRoute cfgOpen c7pulse initialState).2).1.retMs = some 10 :=
  ⟨rfl, rfl, rfl⟩

/-- C7 amended: for the rate-limited write endpoints (/send, /json/set,
/json/inc), after an accepted write from an identity, a second write
from the same identity strictly inside the cooldown window is rejected
with rate-limit and changes nothing, while an identical write issued at
or after the end of the window is accepted; the setTotal and pulse
writes carry no such gate (see the counterexample). -/
theorem cooldown_window_semantics (cfg : Config) (s : ServerState) :
    (∀ (r : SendReq) (t2 t3 : Int),
      (sendRoute cfg r s).1.ok = true →
      (t2 - r.now < cfg.COOLDOWN_MS →
        sendRoute cfg { r with now := t2 } (sendRoute cfg r s).2 =
          (errResp 429 "rate-limit", (sendRoute cfg r s).2)) ∧
      (cfg.COOLDOWN_MS ≤ t3 - r.now →
        (sendRoute cfg { r with now := t3 } (sendRoute cfg r s).2).1.ok = true)) ∧
    (∀ (r : SetReq) (t2 t3 : Int),
      (jsonSetRoute cfg r s).1.ok = true →
      (t2 - r.now < cfg.COOLDOWN_MS →
        jsonSetRoute cfg { r with now := t2 } (jsonSetRoute cfg r s).2 =
          (errResp 429 "rate-limit", (jsonSetRoute cfg r s).2)) ∧
      (cfg.COOLDOWN_MS ≤ t3 - r.now →
        (jsonSetRoute cfg { r with now := t3 } (jsonSetRoute cfg r s).2).1.ok = true)) ∧
    (∀ (r : IncReq) (t2 t3 : Int),
      (jsonIncRoute cfg r s).1.ok = true →
      (t2 - r.now < cfg.COOLDOWN_MS →
        jsonIncRoute cfg { r with now := t2 } (jsonIncRoute cfg r s).2 =
          (errResp 429 "rate-limit", (jsonIncRoute cfg r s).2)) ∧
      (cfg.COOLDOWN_MS ≤ t3 - r.now →
        (jsonIncRoute cfg { r with now := t3 } (jsonIncRoute cfg r s).2).1.ok = true)) := by
  refine ⟨?_, ?_, ?_⟩
  · intro r t2 t3 hok
    have hled : ledgerGet (sendRoute cfg r s).2.lastSentByIP r.ip = r.now := by
      rw [(sendRoute_accept cfg r s hok).2]
      simp [ledgerGet, assocGet_assocSet_self]
    set s1 := (sendRoute cfg r s).2 with hs1
    constructor
    · intro h2
      have hcond : ({ r with now := t2 } : SendReq).now -
          ledgerGet s1.lastSentByIP ({ r with now := t2 } : SendReq).ip <
            cfg.COOLDOWN_MS := by
        show t2 - ledgerGet s1.lastSentByIP r.ip < cfg.COOLDOWN_MS
        omega
      unfold sendRoute
      rw [if_pos hcond]
    · intro h3
      rw [sendRoute_ok_iff]
      constructor
      · show cfg.COOLDOWN_MS ≤ t3 - ledgerGet s1.lastSentByIP r.ip
        omega
      · show sendValidate cfg r = none
        exact ((sendRoute_ok_iff cfg r s).mp hok).2
  · intro r t2 t3 hok
    have hled : ledgerGet (jsonSetRoute cfg r s).2.lastSentByIP r.ip = r.now := by
      rw [(jsonSetRoute_accept cfg r s hok).2]
      simp [ledgerGet, assocGet_assocSet_self]
    obtain ⟨-, hc2, hc3, v, hv⟩ := (jsonSetRoute_ok_iff cfg r s).mp hok
    set s1 := (jsonSetRoute cfg r s).2 with hs1
    constructor
    · intro h2
      have hcond : ({ r with now := t2 } : SetReq).now -
          ledgerGet s1.lastSentByIP ({ r with now := t2 } : SetReq).ip <
            cfg.COOLDOWN_MS := by
        show t2 - ledgerGet s1.lastSentByIP r.ip < cfg.COOLDOWN_MS
        omega
      unfold jsonSetRoute
      rw [if_pos hcond]
    · intro h3
      rw [jsonSetRoute_ok_iff]
      refine ⟨?_, ?_, ?_, ?_⟩
      · show cfg.COOLDOWN_MS ≤ t3 - ledgerGet s1.lastSentByIP r.ip
        omega
      · show ¬(cfg.WRITE_TOKEN ≠ "" ∧ jsTrim r.token ≠ cfg.WRITE_TOKEN)
        exact hc2
      · show jsTrim r.pathStr ≠ ""
        exact hc3
      · exact ⟨v, show setParseValue r = some v from hv⟩
  · intro r t2 t3 hok
    have hled : ledgerGet (jsonIncRoute cfg r s).2.lastSentByIP r.ip = r.now := by
      rw [(jsonIncRoute_accept cfg r s hok).2]
      simp [ledgerGet, assocGet_assocSet_self]
    obtain ⟨-, hc2, hc3, hc4, d, hd⟩ := (jsonIncRoute_ok_iff cfg r s).mp hok
    set s1 := (jsonIncRoute cfg r s).2 with hs1
    constructor
    · intro h2
      have hcond : ({ r with now := t2 } : IncReq).now -
          ledgerGet s1.lastSentByIP ({ r with now := t2 } : IncReq).ip <
            cfg.COOLDOWN_MS := by
        show t2 - ledgerGet s1.lastSentByIP r.ip < cfg.COOLDOWN_MS
        omega
      unfold jsonIncRoute
      rw [if_pos hcond]
    · intro h3
      rw [jsonIncRoute_ok_iff]
      refine ⟨?_, ?_, ?_, ?_, ?_⟩
      · show cfg.COOLDOWN_MS ≤ t3 - ledgerGet s1.lastSentByIP r.ip
        omega
      · show ¬(cfg.WRITE_TOKEN ≠ "" ∧ jsTrim r.token ≠ cfg.WRITE_TOKEN)
        exact hc2
      · show r.pathStr ≠ ""
        exact hc3
      · show ¬(cfg.ALLOWED_WORLD_IDS ≠ [] ∧ jsTrim r.worldId ≠ "" ∧
            jsTrim r.worldId ∉ cfg.ALLOWED_WORLD_IDS)
        exact hc4
      · exact ⟨d, show jsStrToNumber (r.by_.getD "1") = some d from hd⟩

/-- C7 witness: the amended cooldown semantics at a concrete accepted
send (repeated at 11000, inside the window, and at 12000, at its end). -/
theorem cooldown_window_semantics_witness :
    sendRoute cfgOpen { witSend with now := 11000 }
        (sendRoute cfgOpen witSend initialState).2 =
      (errResp 429 "rate-limit", (sendRoute cfgOpen witSend initialState).2) ∧
    (sendRoute cfgOpen { witSend with now := 12000 }
        (sendRoute cfgOpen witSend initialState).2).1.ok = true :=
  ⟨((cooldown_window_semantics cfgOpen initialState).1 witSend 11000 12000 rfl).1
      (by decide),
   ((cooldown_window_semantics cfgOpen initialState).1 witSend 11000 12000 rfl).2
      (by decide)⟩

/-- C3: with an allow-list configured, every message returned by the
incremental query on any reachable state carries an allow-listed
worldId, and a query whose worldId filter is a non-member returns the
empty message list with the cursor equal to the supplied since value,
not an error. -/
theorem allowlist_query_restriction (cfg : Config) (hne : cfg.ALLOWED_WORLD_IDS ≠ [])
    (rs : List Req) (q : MessagesReq) :
    (∀ v ∈ (messagesRoute cfg q (runTrace cfg rs initialState)).messages,
        v.worldId ∈ cfg.ALLOWED_WORLD_IDS) ∧
    (jsTrim q.worldId ≠ "" → jsTrim q.worldId ∉ cfg.ALLOWED_WORLD_IDS →
      (messagesRoute cfg q (runTrace cfg rs initialState)).messages = [] ∧
      (messagesRoute cfg q (runTrace cfg rs initialState)).cursor = q.since) := by
  set s := runTrace cfg rs initialState with hsdef
  have hmem : ∀ m ∈ s.MESSAGES, m.worldId ∈ cfg.ALLOWED_WORLD_IDS :=
    run_allowed cfg rs initialState hne (by intro m hm; cases hm)
  constructor
  · intro v hv
    rw [messagesRoute_eq] at hv
    simp only at hv
    obtain ⟨m, hmtake, rfl⟩ := List.mem_map.mp hv
    have hm1 := List.mem_of_mem_take hmtake
    have hm2 := (List.perm_insertionSort (fun a b : Message => a.id ≤ b.id)
      (s.MESSAGES.filter
        (selFn cfg (jsTrim q.worldId) (jsTrim q.channel) q.since))).subset hm1
    exact hmem m (List.mem_filter.mp hm2).1
  · intro hw hnotin
    have hfilter : s.MESSAGES.filter
        (selFn cfg (jsTrim q.worldId) (jsTrim q.channel) q.since) = [] := by
      refine List.filter_eq_nil_iff.mpr fun m hm hsel => ?_
      unfold selFn at hsel
      rw [Bool.and_eq_true] at hsel
      have h1 := hsel.1
      unfold matchFilters at h1
      rw [Bool.and_eq_true] at h1
      have h2 := h1.1
      rw [Bool.or_eq_true] at h2
      rcases h2 with h3 | h3
      · rw [Bool.or_eq_true] at h3
        rcases h3 with h4 | h4
        · exact hne (of_decide_eq_true h4)
        · exact hw (of_decide_eq_true h4)
      · exact hnotin (of_decide_eq_true h3 ▸ hmem m hm)
    rw [messagesRoute_eq, hfilter]
    simp [List.insertionSort]

/-- A send into worldA at time 10000 (valid under the allow-list). -/
def witSendA : SendReq :=
  { ip := "ip1", worldId := "worldA", channel := "", username := "", text := "hi",
    now := 10000, uuid := "u", tsIso := "t" }

/-- The query with the non-member filter worldC. -/
def c3q : MessagesReq := { worldId := "worldC", channel := "", since := 0, limit := none }

/-- C3 witness: after one accepted send into worldA, the non-member
filter worldC yields the empty list and an unchanged cursor, and the
membership clause holds. -/
theorem allowlist_query_restriction_witness :
    (∀ v ∈ (messagesRoute cfgListed c3q
        (runTrace cfgListed [Req.send witSendA] initialState)).messages,
      v.worldId ∈ cfgListed.ALLOWED_WORLD_IDS) ∧
    (messagesRoute cfgListed c3q
        (runTrace cfgListed [Req.send witSendA] initialState)).messages = [] ∧
    (messagesRoute cfgListed c3q
        (runTrace cfgListed [Req.send witSendA] initialState)).cursor = c3q.since :=
  ⟨(allowlist_query_restriction cfgListed (by decide) [Req.send witSendA] c3q).1,
   (allowlist_query_restriction cfgListed (by decide) [Req.send witSendA] c3q).2
     (by decide) (by decide)⟩

/-- C6: on every request sequence from the initial state, the log's ids
are exactly 1..AUTO_ID in order (strictly increasing, consecutive, no
repeats) and the counter equals the number of accepted sends: rejected
sends consume no id.  Stepwise, an accepted send returns and stores id
AUTO_ID+1 and bumps the counter by one, while a rejected send leaves
the whole state untouched. -/
theorem send_ids_consecutive (cfg : Config) :
    (∀ rs : List Req,
      (runTrace cfg rs initialState).MESSAGES.map Message.id =
        List.range' 1 (runTrace cfg rs initialState).AUTO_ID ∧
      (runTrace cfg rs initialState).AUTO_ID = countOkSends cfg rs initialState) ∧
    (∀ (s : ServerState) (r : SendReq),
      ((sendRoute cfg r s).1.ok = true →
        (sendRoute cfg r s).1.retId = some (s.AUTO_ID + 1) ∧
        (sendRoute cfg r s).2.AUTO_ID = s.AUTO_ID + 1 ∧
        (sendRoute cfg r s).2.MESSAGES = s.MESSAGES ++ [sentMessage r s] ∧
        (sentMessage r s).id = s.AUTO_ID + 1) ∧
      ((sendRoute cfg r s).1.ok = false → (sendRoute cfg r s).2 = s)) := by
  constructor
  · intro rs
    refine ⟨run_ids cfg rs initialState rfl, ?_⟩
    have h := run_autoId cfg rs initialState
    simpa [initialState] using h
  · intro s r
    constructor
    · intro hok
      obtain ⟨hst, hid⟩ := sendRoute_ok_state cfg r s hok
      refine ⟨hid, ?_, ?_, rfl⟩
      · rw [hst]
      · rw [hst]
    · exact sendRoute_err_state cfg r s

/-- An accepted send, a send rejected by the cooldown 500ms later, and
a registration write. -/
def demoTrace : List Req :=
  [.send witSend, .send { witSend with now := 10500 }, .setTotal c2total]

/-- C6 witness: the trace invariant on a concrete trace containing an
accepted send, a rejected send and a non-chat write, plus the step
clause at a concrete accepted send. -/
theorem send_ids_consecutive_witness :
    ((runTrace cfgOpen demoTrace initialState).MESSAGES.map Message.id =
        List.range' 1 (runTrace cfgOpen demoTrace initialState).AUTO_ID ∧
      (runTrace cfgOpen demoTrace initialState).AUTO_ID =
        countOkSends cfgOpen demoTrace initialState) ∧
    (runTrace cfgOpen demoTrace initialState).AUTO_ID = 1 ∧
    (sendRoute cfgOpen witSend initialState).1.retId =
      some (initialState.AUTO_ID + 1) :=
  ⟨(send_ids_consecutive cfgOpen).1 demoTrace, by decide,
   (((send_ids_consecutive cfgOpen).2 initialState witSend).1 rfl).1⟩

/-- A third stored message. -/
def msgC : Message :=
  { id := 3, uuid := "u3", worldId := "worldA", channel := "global",
    username := "Guest", text := "m3", timestamp := "t3" }

/-- A log of three messages with ascending ids. -/
def threeMsgState : ServerState :=
  { initialState with AUTO_ID := 3, MESSAGES := [msgA, msgB, msgC] }

/-- The query of the worked example: no filters, since 0, limit 2. -/
def c1q : MessagesReq := { worldId := "", channel := "", since := 0, limit := some 2 }

/-- C1: on a log with ascending ids (an invariant of every reachable
state, re-proved in run_ids), the incremental query returns exactly the
selected messages - those passing the filter chain with id strictly
above since - in ascending id order, truncated to the clamped limit;
the cursor is the id of the last returned message, or the original
since when nothing matched; and iterated polling that feeds each cursor
back as the next since enumerates every selected message exactly once,
in id order, with no gaps and no duplicates. -/
theorem messages_query_exact_pagination (cfg : Config) (s : ServerState) (q : MessagesReq)
    (hs : IdsSorted s.MESSAGES) (fuel : Nat)
    (hfuel : (s.MESSAGES.filter
        (selFn cfg (jsTrim q.worldId) (jsTrim q.channel) q.since)).length ≤ fuel) :
    (messagesRoute cfg q s).messages =
      ((s.MESSAGES.filter (selFn cfg (jsTrim q.worldId) (jsTrim q.channel) q.since)).take
        (clampLimit cfg q.limit)).map msgView ∧
    (messagesRoute cfg q s).messages.length ≤ clampLimit cfg q.limit ∧
    (messagesRoute cfg q s).messages.Pairwise (fun a b => a.id < b.id) ∧
    (messagesRoute cfg q s).cursor =
      (match (messagesRoute cfg q s).messages.getLast? with
       | some v => (v.id : Int)
       | none => q.since) ∧
    pollAll cfg q.worldId q.channel q.limit s q.since fuel =
      (s.MESSAGES.filter
        (selFn cfg (jsTrim q.worldId) (jsTrim q.channel) q.since)).map msgView := by
  have hT : IdsSorted (s.MESSAGES.filter
      (selFn cfg (jsTrim q.worldId) (jsTrim q.channel) q.since)) :=
    idsSorted_filter _ _ hs
  refine ⟨?_, ?_, ?_, ?_, ?_⟩
  · rw [messagesRoute_eq_of_sorted cfg q s hs]
  · rw [messagesRoute_eq_of_sorted cfg q s hs]
    simp only [List.length_map]
    exact List.length_take_le _ _
  · rw [messagesRoute_eq_of_sorted cfg q s hs]
    simp only
    exact List.pairwise_map.mpr (List.Pairwise.sublist (List.take_sublist _ _) hT)
  · rw [messagesRoute_eq_of_sorted cfg q s hs]
    simp only [List.getLast?_map]
    cases h : ((s.MESSAGES.filter
        (selFn cfg (jsTrim q.worldId) (jsTrim q.channel) q.since)).take
          (clampLimit cfg q.limit)).getLast? <;> simp [h, msgView]
  · exact pollAll_eq cfg q.worldId q.channel q.limit s hs fuel q.since hfuel

/-- C1 witness: the worked example of the specification on a concrete
three-message log: page one is ids 1 and 2 with cursor 2, the follow-up
query at since 2 returns id 3 with cursor 3, and three polls enumerate
the whole log exactly once. -/
theorem messages_query_exact_pagination_witness :
    IdsSorted threeMsgState.MESSAGES ∧
    (messagesRoute cfgOpen c1q threeMsgState).messages.map MsgView.id = [1, 2] ∧
    (messagesRoute cfgOpen c1q threeMsgState).cursor = 2 ∧
    (messagesRoute cfgOpen { c1q with since := 2 } threeMsgState).messages.map
      MsgView.id = [3] ∧
    (messagesRoute cfgOpen { c1q with since := 2 } threeMsgState).cursor = 3 ∧
    pollAll cfgOpen c1q.worldId c1q.channel c1q.limit threeMsgState c1q.since 3 =
      (threeMsgState.MESSAGES.filter
        (selFn cfgOpen (jsTrim c1q.worldId) (jsTrim c1q.channel) c1q.since)).map msgView :=
  ⟨idsSorted_of_range threeMsgState.MESSAGES 3 (by decide), by decide, by decide,
   by decide, by decide,
   (messages_query_exact_pagination cfgOpen threeMsgState c1q
      (idsSorted_of_range threeMsgState.MESSAGES 3 (by decide)) 3
      (by decide)).2.2.2.2⟩

end GlobalChat
